import Mathlib

/-!
Shallow embedding of the asciigame5 dungeon-crawler core
(`src/ecs.py`, `src/systems.py`, `src/dungeon.py`, together with the data
tables in `src/tables.py`, `src/room_templates.py` and the component
records in `src/components.py`), followed by theorems settling the
specification claims about it.

Python dictionaries are modelled as association lists with unique keys
kept in insertion order (`dlookup` / `dinsert` / `dremove`), Python sets
of entity ids as lists (`saddElem` / `sdiscard`), and the global
`random` stream as an explicit list of naturals threaded through the
functions that draw from it.  Machine integers do not occur: Python
integers are unbounded, so stats and bonuses are `Int` and identifiers
are `Nat`.
-/

namespace Game

/-- Lookup in a Python-style dict modelled as an association list
(first binding for the key wins; keys are unique by construction). -/
def dlookup {κ β : Type} [DecidableEq κ] (k : κ) : List (κ × β) → Option β
  | [] => none
  | p :: l => if p.1 = k then some p.2 else dlookup k l

/-- Source: `d[k] = v` on a Python-style dict: replace the binding in place if the
key is present, otherwise append it (insertion order semantics). -/
def dinsert {κ β : Type} [DecidableEq κ] (k : κ) (v : β) : List (κ × β) → List (κ × β)
  | [] => [(k, v)]
  | p :: l => if p.1 = k then (k, v) :: l else p :: dinsert k v l

/-- Source: `del d[k]` on a Python-style dict. -/
def dremove {κ β : Type} [DecidableEq κ] (k : κ) (l : List (κ × β)) : List (κ × β) :=
  l.filter (fun p => p.1 ≠ k)

/-- Source: `s.add(x)` on a Python set modelled as a duplicate-free list. -/
def saddElem (x : Nat) (s : List Nat) : List Nat :=
  if x ∈ s then s else s ++ [x]

/-- Source: `s.discard(x)` on a Python set modelled as a duplicate-free list. -/
def sdiscard (x : Nat) (s : List Nat) : List Nat :=
  s.filter (fun y => y ≠ x)

/-! ### Component records (`src/components.py`) -/

/-- Source: `Stats` component: primary and adjusted characteristics, hit points,
defense, damage modifier, the three 10-slot experience tracks of
`xp_pips` and the attuned-stat list.  The `xp_pips` dict has the fixed
keys `"str"`, `"dex"`, `"int"`, modelled as three track fields. -/
structure Stats where
  primary_str : Int
  primary_dex : Int
  primary_int : Int
  primary_hp : Int
  adj_str : Int
  adj_dex : Int
  adj_int : Int
  max_hp : Int
  current_hp : Int
  av : Int
  defense : Int
  damage_mod : Int
  xp_str : List Nat
  xp_dex : List Nat
  xp_int : List Nat
  attuned_stats : List String
deriving DecidableEq, Repr

/-- Source: `Stats(strength, dexterity, intelligence, hp, av=0, defense=0,
damage_mod=0)` constructor from `src/components.py`. -/
def Stats.init (strength dexterity intelligence hp : Int) : Stats :=
  { primary_str := strength, primary_dex := dexterity
    primary_int := intelligence, primary_hp := hp
    adj_str := strength, adj_dex := dexterity, adj_int := intelligence
    max_hp := hp, current_hp := hp
    av := 0, defense := 0, damage_mod := 0
    xp_str := List.replicate 10 0, xp_dex := List.replicate 10 0
    xp_int := List.replicate 10 0, attuned_stats := [] }

/-- Source: `name_lower in stats.xp_pips`: the dict keys are exactly the three
characteristics. -/
def statKeys : List String := ["str", "dex", "int"]

/-- Source: `stats.xp_pips[name]` for a key of the track dict. -/
def Stats.xpOf (s : Stats) (name : String) : List Nat :=
  if name = "str" then s.xp_str
  else if name = "dex" then s.xp_dex
  else s.xp_int

/-- Source: `stats.xp_pips[name] = t`. -/
def Stats.setXp (s : Stats) (name : String) (t : List Nat) : Stats :=
  if name = "str" then { s with xp_str := t }
  else if name = "dex" then { s with xp_dex := t }
  else { s with xp_int := t }

/-- Source: `getattr(stats, f"adj_{name}")`; `none` models the `AttributeError`
raised for a name that is not a characteristic. -/
def Stats.adjOf (s : Stats) (name : String) : Option Int :=
  if name = "str" then some s.adj_str
  else if name = "dex" then some s.adj_dex
  else if name = "int" then some s.adj_int
  else none

/-- Source: `getattr(stats, f"primary_{name}")` for a characteristic name. -/
def Stats.primaryOf (s : Stats) (name : String) : Int :=
  if name = "str" then s.primary_str
  else if name = "dex" then s.primary_dex
  else s.primary_int

/-- Source: `setattr(stats, f"primary_{name}", v)` for a characteristic name. -/
def Stats.setPrimary (s : Stats) (name : String) (v : Int) : Stats :=
  if name = "str" then { s with primary_str := v }
  else if name = "dex" then { s with primary_dex := v }
  else { s with primary_int := v }

/-- Per-skill record held in the `Skills.skills` dict. -/
structure SkillData where
  bonus : Int
  xp_pips : List Nat
  attuned : Bool
deriving DecidableEq, Repr

/-- Source: `Skills` component: dict from skill name to its progression data. -/
structure Skills where
  skills : List (String × SkillData)
deriving DecidableEq, Repr

/-- The fixed closed set of ten skill names from `src/components.py`. -/
def skillNames : List String :=
  ["Agility", "Aware", "Bravery", "Dodge", "Escape", "Locks",
   "Lucky", "Magic", "Strong", "Traps"]

/-- Source: `Skills()` constructor: every skill starts at bonus 0 with an empty
10-slot track and not attuned. -/
def Skills.init : Skills :=
  ⟨skillNames.map (fun s => (s, ⟨0, List.replicate 10 0, false⟩))⟩

/-- Source: `Item` component: name, value, slot and the `bonuses` dict. -/
structure Item where
  name : String
  value : Int
  slot : String
  bonuses : List (String × Int)
deriving DecidableEq, Repr

/-- Source: `item.bonuses.get(k, 0)`. -/
def Item.bget (i : Item) (k : String) : Int :=
  (dlookup k i.bonuses).getD 0

/-- Source: `Equipment` component: dict from slot name to optionally an equipped
item entity id. -/
structure Equipment where
  slots : List (String × Option Nat)
deriving DecidableEq, Repr

/-- Source: `Equipment()` constructor: the fixed thirteen empty slots. -/
def Equipment.init : Equipment :=
  ⟨["head", "torso", "main_hand", "off_hand", "back", "arms", "hands",
    "waist", "legs", "feet", "neck", "ring1", "ring2"].map (fun s => (s, none))⟩

/-! ### The entity-component world (`src/ecs.py`)

Components are identified in the store by their class name; the classes
relevant to the verified systems are `Stats`, `Skills`, `Equipment` and
`Item`, and every other component class is carried opaquely by its
name. -/

inductive Component where
  | stats (s : Stats)
  | skills (s : Skills)
  | equipment (e : Equipment)
  | item (i : Item)
  | other (name : String)
deriving DecidableEq, Repr

/-- Source: `component.__class__.__name__`. -/
def componentName : Component → String
  | .stats _ => "Stats"
  | .skills _ => "Skills"
  | .equipment _ => "Equipment"
  | .item _ => "Item"
  | .other n => n

/-- The `World` class of `src/ecs.py`: `entities` maps an entity id to
its dict of components by class name, `components` maps a class name to
the set of entity ids carrying it. -/
structure World where
  entities : List (Nat × List (String × Component))
  components : List (String × List Nat)
  entity_id_counter : Nat
deriving DecidableEq, Repr

/-- Source: `World()`. -/
def World.init : World := ⟨[], [], 0⟩

/-- Source: `create_entity`: hands out the counter value and registers an empty
component dict for it. -/
def World.create_entity (w : World) : Nat × World :=
  (w.entity_id_counter,
   { w with entities := dinsert w.entity_id_counter [] w.entities
            entity_id_counter := w.entity_id_counter + 1 })

/-- Source: `add_component`: `self.entities[entity_id][name] = component` raises
`KeyError` (modelled by `none`) when the entity id is absent; on success
the type index set gains the entity id. -/
def World.add_component (w : World) (entity_id : Nat) (c : Component) : Option World :=
  match dlookup entity_id w.entities with
  | none => none
  | some comps =>
    let n := componentName c
    some { w with
      entities := dinsert entity_id (dinsert n c comps) w.entities
      components :=
        match dlookup n w.components with
        | none => dinsert n (saddElem entity_id []) w.components
        | some s => dinsert n (saddElem entity_id s) w.components }

/-- Source: `get_component`: `self.entities.get(entity_id, dict()).get(name)`. -/
def World.get_component (w : World) (entity_id : Nat) (component_name : String) :
    Option Component :=
  match dlookup entity_id w.entities with
  | none => none
  | some comps => dlookup component_name comps

/-- The generator `(self.components[name] for name in names)`: `none`
models the `KeyError` raised on the first name with no index set. -/
def lookupAll (w : World) : List String → Option (List (List Nat))
  | [] => some []
  | n :: rest =>
    match dlookup n w.components, lookupAll w rest with
    | some s, some ss => some (s :: ss)
    | _, _ => none

/-- Source: `get_entities_with`: intersection of the type index sets; a missing
index (`KeyError`) or an empty argument list (`TypeError` from
`set.intersection()`) yields the empty set. -/
def World.get_entities_with (w : World) (names : List String) : List Nat :=
  match lookupAll w names with
  | none => []
  | some [] => []
  | some (s :: ss) => ss.foldl (fun acc t => acc.filter (fun e => e ∈ t)) s

/-- Source: `remove_entity`: discard the id from every index set naming one of
its components, then delete its entry; a no-op for an absent id. -/
def World.remove_entity (w : World) (entity_id : Nat) : World :=
  match dlookup entity_id w.entities with
  | none => w
  | some comps =>
    { w with
      components := comps.foldl
        (fun acc p =>
          match dlookup p.1 acc with
          | none => acc
          | some s => dinsert p.1 (sdiscard entity_id s) acc)
        w.components
      entities := dremove entity_id w.entities }

/-- In-place mutation of a component object already fetched from the
store: replace the value held under its class name.  (Python mutates the
shared object; the entity dict entry is what observes the change.) -/
def setComp (w : World) (pid : Nat) (c : Component) : World :=
  match dlookup pid w.entities with
  | none => w
  | some comps =>
    { w with entities := dinsert pid (dinsert (componentName c) c comps) w.entities }

/-! ### The rule engine (`src/systems.py`)

`d100()` draws are injected: each function that rolls receives the roll
value as an argument, standing for one draw of the shared random
stream. -/

/-- Source: `name.lower()`: the engine only lowercases ASCII characteristic
names, for which Python's `str.lower` is the per-character lowercase
map. -/
def pyLower (s : String) : String :=
  ⟨s.data.map Char.toLower⟩

/-- One pass of the loop body
`if 0 in track: track[track.index(0)] = 1`: set the first empty slot, a
no-op when the track has no empty slot. -/
def setFirstZero : List Nat → List Nat
  | [] => []
  | x :: t => if x = 0 then 1 :: t else x :: setFirstZero t

/-- Apply an equipped item's bonuses dict to the running stats, as in the
aggregation loop of `update_player_stats`. -/
def applyBonuses (s : Stats) (it : Item) : Stats :=
  { s with
    adj_str := s.adj_str + it.bget "str"
    adj_dex := s.adj_dex + it.bget "dex"
    adj_int := s.adj_int + it.bget "int"
    max_hp := s.max_hp + it.bget "hp"
    defense := s.defense + it.bget "def"
    damage_mod := s.damage_mod + it.bget "dmg" }

/-- One iteration of the `for item_id in equipment.slots.values()`
aggregation loop: `if item_id:` skips empty slots (and the falsy id
`0`), `if item and item.bonuses:` skips ids without an `Item` component
and items with an empty bonuses dict. -/
def applyItemStep (w : World) (s : Stats) (oid : Option Nat) : Stats :=
  match oid with
  | none => s
  | some item_id =>
    if item_id = 0 then s
    else
      match w.get_component item_id "Item" with
      | some (.item it) => if it.bonuses = [] then s else applyBonuses s it
      | _ => s

/-- The whole aggregation loop over the slot values. -/
def applyItems (w : World) (s : Stats) (l : List (Option Nat)) : Stats :=
  l.foldl (applyItemStep w) s

/-- The body of `update_player_stats` on the fetched components: reset
the adjusted values to the primaries, fold in every equipped item's
bonuses, then cap `current_hp` at the new `max_hp`. -/
def recomputeStats (w : World) (ps : Stats) (eq : Equipment) : Stats :=
  let s0 := { ps with
    adj_str := ps.primary_str, adj_dex := ps.primary_dex
    adj_int := ps.primary_int, max_hp := ps.primary_hp
    defense := 0, damage_mod := 0 }
  let s1 := applyItems w s0 (eq.slots.map (fun p => p.2))
  { s1 with current_hp := min s1.current_hp s1.max_hp }

/-- Source: `update_player_stats(world, player_id)`: recompute the adjusted
stats from equipment; an early `return` (world unchanged) when the
entity lacks `Stats` or `Equipment`. -/
def update_player_stats (w : World) (player_id : Nat) : World :=
  match w.get_component player_id "Stats", w.get_component player_id "Equipment" with
  | some (.stats ps), some (.equipment eq) =>
    setComp w player_id (.stats (recomputeStats w ps eq))
  | _, _ => w

/-- Source: `award_experience(world, player_id, name, pips_to_add)`: fill
experience pips into a stat or skill track and handle the level-up.
`none` models the `AttributeError` raised when the entity lacks the
`Stats` component (or, for a skill award, the `Skills` component). -/
def award_experience (w : World) (player_id : Nat) (name : String)
    (pips_to_add : Nat) : Option World :=
  match w.get_component player_id "Stats" with
  | some (.stats stats) =>
    let name_lower := pyLower name
    if name_lower ∈ statKeys then
      -- Awarding XP to a Stat
      let pips := if name_lower ∈ stats.attuned_stats then pips_to_add * 2 else pips_to_add
      let track := setFirstZero^[pips] (stats.xpOf name_lower)
      if 0 ∈ track then
        some (setComp w player_id (.stats (stats.setXp name_lower track)))
      else
        -- Level up!
        let leveled :=
          ((stats.setXp name_lower track).setPrimary name_lower
            (stats.primaryOf name_lower + 5)).setXp name_lower (List.replicate 10 0)
        some (update_player_stats (setComp w player_id (.stats leveled)) player_id)
    else
      match w.get_component player_id "Skills" with
      | some (.skills skills) =>
        match dlookup name skills.skills with
        | some skill_data =>
          -- Awarding XP to a Skill
          let pips := if skill_data.attuned then pips_to_add * 2 else pips_to_add
          -- Rule: 2 pips for assisted skills
          let track := setFirstZero^[pips * 2] skill_data.xp_pips
          if 0 ∈ track then
            some (setComp w player_id
              (.skills ⟨dinsert name { skill_data with xp_pips := track } skills.skills⟩))
          else
            -- Level up!
            some (setComp w player_id
              (.skills ⟨dinsert name
                { skill_data with bonus := skill_data.bonus + 5
                                  xp_pips := List.replicate 10 0 } skills.skills⟩))
        | none => some w
      | _ => none
  | _ => none

/-- Source: `perform_test(world, player_id, characteristic, modifier,
assisting_skills)` with the d100 roll injected: compute the target from
the adjusted characteristic, the modifier and the assisting skills'
bonuses, award experience on a roll of at most 10, and resolve the roll
with the 1/100 overrides.  `none` models the `AttributeError` on a
missing component or an unknown characteristic. -/
def perform_test (w : World) (player_id : Nat) (characteristic : String)
    (modifier : Int) (assisting_skills : List String) (roll : Nat) :
    Option (Bool × Nat × World) :=
  match w.get_component player_id "Stats", w.get_component player_id "Skills" with
  | some (.stats stats), some (.skills skills) =>
    let char_lower := pyLower characteristic
    match stats.adjOf char_lower with
    | none => none
    | some adj =>
      let target_value := assisting_skills.foldl
        (fun t sn =>
          match dlookup sn skills.skills with
          | some sd => t + sd.bonus
          | none => t)
        (adj + modifier)
      let w1opt :=
        if roll ≤ 10 then
          (award_experience w player_id char_lower 1).bind (fun w0 =>
            assisting_skills.foldlM
              (fun wacc sn => award_experience wacc player_id sn 1) w0)
        else some w
      w1opt.map (fun w1 =>
        if roll = 1 then (true, roll, w1)
        else if roll = 100 then (false, roll, w1)
        else (decide ((roll : Int) ≤ target_value), roll, w1))
  | _, _ => none

/-! ### The dungeon generator (`src/dungeon.py`) and its data tables

The shared `random` stream is modelled as a list of naturals: `d100()`
consumes one element as the roll, and `random.choice(pool)` consumes one
element `c` and picks index `c % pool.length` (every choice from the
nonempty pool is reachable). -/

/-- The injected random stream. -/
def Rng : Type := List Nat

/-- Consume one draw from the stream. -/
def Rng.draw (r : Rng) : Nat × Rng := (r.headD 1, r.tail)

/-- One side of an area layout from Table M: `0` wall, `1` open, `'D'`
door. -/
inductive Cell where
  | wall
  | openSide
  | door
deriving DecidableEq, Repr

/-- A Table M entry: area colour type and the `[Top, Right, Bottom,
Left]` layout. -/
structure AreaData where
  type : String
  layout : List Cell
deriving DecidableEq, Repr

/-- The integer-keyed entries of `MAPPING_TABLE` from `src/tables.py`
(the `'entrance'` key is `entranceAreaData` below). -/
def MAPPING_TABLE : List (Nat × AreaData) :=
  [(1, ⟨"Yellow", [.openSide, .wall, .openSide, .wall]⟩),
   (2, ⟨"Red", [.openSide, .openSide, .openSide, .openSide]⟩),
   (3, ⟨"Yellow", [.wall, .openSide, .wall, .openSide]⟩),
   (4, ⟨"Red", [.openSide, .door, .openSide, .wall]⟩),
   (5, ⟨"Yellow", [.openSide, .openSide, .wall, .openSide]⟩),
   (6, ⟨"Green", [.wall, .openSide, .openSide, .openSide]⟩),
   (7, ⟨"Red", [.openSide, .door, .openSide, .door]⟩),
   (8, ⟨"Yellow", [.openSide, .wall, .openSide, .wall]⟩),
   (9, ⟨"Green", [.openSide, .door, .openSide, .openSide]⟩),
   (10, ⟨"Red", [.openSide, .wall, .openSide, .wall]⟩)]

/-- Source: `MAPPING_TABLE['entrance']`. -/
def entranceAreaData : AreaData :=
  ⟨"Yellow", [.openSide, .wall, .wall, .wall]⟩

/-- A `DOOR_TABLE` entry from `src/tables.py`. -/
structure DoorData where
  code : String
  type : String
  test : String
  mod : Int
  skills : List String
deriving DecidableEq, Repr

/-- Source: `DOOR_TABLE`. -/
def DOOR_TABLE : List (Nat × DoorData) :=
  [(1, ⟨"L1", "Locked", "Dex", 0, ["Locks"]⟩),
   (32, ⟨"TL1", "Trap Locked", "Dex", 0, ["Locks", "Traps"]⟩),
   (34, ⟨"J1", "Jammed", "Str", 0, ["Strong"]⟩),
   (72, ⟨"L4", "Locked", "Dex", -15, ["Locks"]⟩),
   (96, ⟨"M", "Magic", "Int", 0, ["Magic"]⟩)]

/-- The `Door` class: door-table fields plus the `is_open` flag, false at
creation. -/
structure Door where
  type : String
  code : String
  test : String
  mod : Int
  skills : List String
  is_open : Bool
deriving DecidableEq, Repr

/-- Source: `Door(door_data)`. -/
def Door.ofData (d : DoorData) : Door :=
  ⟨d.type, d.code, d.test, d.mod, d.skills, false⟩

/-- A room template from `src/room_templates.py`: tile rows, exits dict
(direction name to local coordinate) and an optional start position. -/
structure Template where
  map : List String
  exits : List (String × (Nat × Nat))
  start_pos : Option (Nat × Nat)
deriving DecidableEq, Repr

/-- Source: `TEMPLATES` from `src/room_templates.py`, in definition order. -/
def TEMPLATES : List (String × Template) :=
  [("start_room",
    ⟨["#########D##########",
      "#..................#",
      "#..................#",
      "#..................#",
      "#..................#",
      "#..................#",
      "#..................#",
      "#..................#",
      "####################"],
     [("north", (9, 0))], some (9, 4)⟩),
   ("corridor_ns",
    ⟨["#######D###########",
      "#######.###########",
      "#######.###########",
      "#######.###########",
      "#######.###########",
      "#######.###########",
      "#######.###########",
      "#######D###########"],
     [("north", (7, 0)), ("south", (7, 7))], none⟩),
   ("four_way_room",
    ⟨["#########D#########",
      "#.................#",
      "#.................#",
      "#.................#",
      "D.................D",
      "#.................#",
      "#.................#",
      "#.................#",
      "#########D#########"],
     [("north", (9, 0)), ("south", (9, 8)), ("east", (18, 4)), ("west", (0, 4))],
     none⟩)]

/-- Source: `TEMPLATES['start_room']`. -/
def startRoomTemplate : Template :=
  (dlookup "start_room" TEMPLATES).getD ⟨[], [], none⟩

/-- Source: `abs(k - roll)` on Python ints. -/
def keyDist (k roll : Nat) : Nat := max k roll - min k roll

/-- Source: `min(keys, key=lambda k: abs(k - roll))`: Python's `min` keeps the
first minimum in iteration order, so ties go to the earlier key. -/
def closestKey (keys : List Nat) (roll : Nat) : Nat :=
  match keys with
  | [] => 0
  | k :: ks =>
    ks.foldl (fun best k2 => if keyDist k2 roll < keyDist best roll then k2 else best) k

/-- One entry of an area's `world_tiles` dict. -/
structure TileData where
  char : Char
  local_pos : Nat × Nat
  room_coords : Int × Int
deriving DecidableEq, Repr

/-- Source: `Area._calculate_world_positions`: each tile's world coordinate is
the room offset `room_coord * (dimension - 1)` plus its local offset.
Local coordinates are pairwise distinct, so the dict is listed in
generation order with unique keys. -/
def calcWorldTiles (x y : Int) (rows : List String) : List ((Int × Int) × TileData) :=
  let room_width := (rows.headD "").length
  let room_height := rows.length
  let ox : Int := x * ((room_width : Int) - 1)
  let oy : Int := y * ((room_height : Int) - 1)
  (rows.enum.map (fun row =>
    row.2.toList.enum.map (fun ch =>
      ((ox + (ch.1 : Int), oy + (row.1 : Int)),
       TileData.mk ch.2 (ch.1, row.1) (x, y))))).flatten

/-- The `Area` class (rendering colour omitted; it is a fixed function
of `type` used only for drawing). -/
structure Area where
  x : Int
  y : Int
  type : String
  layout : List Cell
  has_been_searched : Bool
  doors : List ((Int × Int) × Door)
  template : Template
  world_tiles : List ((Int × Int) × TileData)
deriving DecidableEq, Repr

/-- Source: `Area(x, y, area_data, template)` before door generation:
`room_data` is the template's map and the world tiles are computed at
construction. -/
def Area.init (x y : Int) (area_data : AreaData) (template : Template) : Area :=
  { x := x, y := y, type := area_data.type, layout := area_data.layout
    has_been_searched := false, doors := []
    template := template
    world_tiles := calcWorldTiles x y template.map }

/-- Source: `exit_map = {0: (0,-1), 1: (1,0), 2: (0,1), 3: (-1,0)}`; layouts
always have exactly four sides. -/
def exitOffset : Nat → Int × Int
  | 0 => (0, -1)
  | 1 => (1, 0)
  | 2 => (0, 1)
  | _ => (-1, 0)

/-- The door-generation loop of `generate_area`: for every layout side
marked `'D'`, roll d100, pick the nearest door-table key and record a
`Door` at that side's direction offset. -/
def genDoorsAux (i : Nat) (cells : List Cell)
    (doors : List ((Int × Int) × Door)) (rng : Rng) :
    List ((Int × Int) × Door) × Rng :=
  match cells with
  | [] => (doors, rng)
  | .door :: rest =>
    let (roll, r1) := Rng.draw rng
    let k := closestKey (DOOR_TABLE.map (fun p => p.1)) roll
    let dd := (dlookup k DOOR_TABLE).getD ⟨"L1", "Locked", "Dex", 0, ["Locks"]⟩
    genDoorsAux (i + 1) rest (dinsert (exitOffset i) (Door.ofData dd) doors) r1
  | _ :: rest => genDoorsAux (i + 1) rest doors rng

/-- The `DungeonMap` class: generated areas by coordinate and the global
world tile map. -/
structure DungeonMap where
  areas : List ((Int × Int) × Area)
  world_tiles : List ((Int × Int) × TileData)
deriving DecidableEq, Repr

/-- Source: `_add_area_to_world_map`: merge an area's tiles; a position already
present is overwritten only by a door tile. -/
def addAreaToWorldMap (m : List ((Int × Int) × TileData)) (a : Area) :
    List ((Int × Int) × TileData) :=
  a.world_tiles.foldl
    (fun acc kv =>
      if dlookup kv.1 acc = none ∨ kv.2.char = 'D' then dinsert kv.1 kv.2 acc else acc)
    m

/-- Source: `get_area(x, y)`. -/
def DungeonMap.get_area (dm : DungeonMap) (x y : Int) : Option Area :=
  dlookup (x, y) dm.areas

/-- The template-selection passage of `generate_area`: filter the
catalog for non-start templates whose exits dict contains the required
entrance direction (`required_exit` falsy gives no candidates), fall
back to every non-start template when none match (the degraded-selection
warning path), then `random.choice` on the pool via the injected choice
draw `c`. -/
def chooseTemplateKey (required_exit : Option String) (c : Nat) : String :=
  let possible_templates : List String :=
    match required_exit with
    | none => []
    | some d =>
      (TEMPLATES.filter (fun p =>
        decide (p.1 ≠ "start_room" ∧ d ∈ p.2.exits.map (fun e => e.1)))).map
        (fun p => p.1)
  let pool :=
    if possible_templates.isEmpty then
      (TEMPLATES.filter (fun p => decide (p.1 ≠ "start_room"))).map (fun p => p.1)
    else possible_templates
  pool.getD (c % pool.length) "start_room"

/-- Source: `generate_area(x, y, is_entrance, required_exit)`: return the cached
area when one exists at `(x, y)`; otherwise roll the area type (nearest
Table M key), pick a template whose exits contain the required entrance
direction (falling back to any non-start template when none matches),
build the area, cache it, merge its tiles into the world map and roll
its doors.  Python mutates `new_area.doors` in place after caching; the
cached object therefore carries the doors, which the model reflects by
constructing the area with its doors before insertion. -/
def DungeonMap.generate_area (dm : DungeonMap) (x y : Int) (is_entrance : Bool)
    (required_exit : Option String) (rng : Rng) : Area × DungeonMap × Rng :=
  match dlookup (x, y) dm.areas with
  | some a => (a, dm, rng)
  | none =>
    let adt : AreaData × Template × Rng :=
      if is_entrance then (entranceAreaData, startRoomTemplate, rng)
      else
        let rr := Rng.draw rng
        let closest_roll := closestKey (MAPPING_TABLE.map (fun p => p.1)) rr.1
        let area_data := (dlookup closest_roll MAPPING_TABLE).getD entranceAreaData
        let cr := Rng.draw rr.2
        let template_key := chooseTemplateKey required_exit cr.1
        (area_data, (dlookup template_key TEMPLATES).getD startRoomTemplate, cr.2)
    let new_area0 := Area.init x y adt.1 adt.2.1
    let dg := genDoorsAux 0 new_area0.layout [] adt.2.2
    let new_area := { new_area0 with doors := dg.1 }
    let dm1 : DungeonMap :=
      { areas := dinsert (x, y) new_area dm.areas
        world_tiles := addAreaToWorldMap dm.world_tiles new_area }
    (new_area, dm1, dg.2)

/-- Source: `DungeonMap()`: the constructor generates the entrance at `(0, 0)`. -/
def DungeonMap.init (rng : Rng) : DungeonMap × Rng :=
  let g := DungeonMap.generate_area ⟨[], []⟩ 0 0 true none rng
  (g.2.1, g.2.2)

/-! ### Observers, specification-level sums and well-formedness
predicates used by the theorems -/

/-- The `k`-bonus contributed by one equipment slot value in the
aggregation loop of `update_player_stats`. -/
def itemContribution (w : World) (k : String) (oid : Option Nat) : Int :=
  match oid with
  | none => 0
  | some id =>
    if id = 0 then 0
    else
      match w.get_component id "Item" with
      | some (.item it) => if it.bonuses = [] then 0 else it.bget k
      | _ => 0

/-- Total `k`-bonus the aggregation loop adds over a slot-value list. -/
def itemsSum (w : World) (k : String) : List (Option Nat) → Int
  | [] => 0
  | oid :: rest => itemContribution w k oid + itemsSum w k rest

/-- The `k` bonus carried by the item entity `i`, zero when the entity
is no item. -/
def specItemBonus (w : World) (k : String) (i : Nat) : Int :=
  match w.get_component i "Item" with
  | some (.item it) => it.bget k
  | _ => 0

/-- Modelled from the spec: the summed `k` bonuses of all currently
equipped items — every occupied slot whose id carries an `Item`
component contributes that item's `bonuses.get(k, 0)`. -/
def equippedBonusSum (w : World) (eq : Equipment) (k : String) : Int :=
  (((eq.slots.map (fun p => p.2)).filterMap id).map (specItemBonus w k)).sum

/-- The sum of the assisting skills' bonuses (a name that is no skill of
the entity contributes nothing). -/
def skillBonusSum (skills : Skills) (names : List String) : Int :=
  names.foldl
    (fun t sn =>
      match dlookup sn skills.skills with
      | some sd => t + sd.bonus
      | none => t)
    0

/-- The entity's current hit points, when it has a `Stats` component. -/
def currentHpOf (w : World) (pid : Nat) : Option Int :=
  match w.get_component pid "Stats" with
  | some (.stats s) => some s.current_hp
  | _ => none

/-- A well-formed experience track: exactly ten slots, each empty (0) or
filled (1). -/
def TrackWF (t : List Nat) : Prop :=
  t.length = 10 ∧ ∀ x ∈ t, x = 0 ∨ x = 1

instance (t : List Nat) : Decidable (TrackWF t) := by
  unfold TrackWF; infer_instance

/-- All three stat experience tracks are well-formed. -/
def StatsWF (s : Stats) : Prop :=
  TrackWF s.xp_str ∧ TrackWF s.xp_dex ∧ TrackWF s.xp_int

instance (s : Stats) : Decidable (StatsWF s) := by
  unfold StatsWF; infer_instance

/-- Every skill's experience track is well-formed. -/
def SkillsWF (sk : Skills) : Prop :=
  ∀ p ∈ sk.skills, TrackWF p.2.xp_pips

instance (sk : Skills) : Decidable (SkillsWF sk) := by
  unfold SkillsWF; infer_instance

/-- The entity carries `Stats` and `Skills` components, as the player
does whenever the rule engine is invoked on it. -/
def HasCore (w : World) (pid : Nat) : Prop :=
  (∃ s, w.get_component pid "Stats" = some (.stats s)) ∧
  (∃ k, w.get_component pid "Skills" = some (.skills k))

/-- A small concrete world for the witnesses: entity 0 carries `Stats`,
`Skills` and `Equipment` with a sword (entity 1) equipped in the main
hand. -/
def sampleItem : Item := ⟨"Sword", 10, "main_hand", [("str", 5), ("hp", 3)]⟩

def sampleStats : Stats := Stats.init 50 40 30 20

def sampleEquipment : Equipment := ⟨[("main_hand", some 1), ("head", none)]⟩

def sampleWorld : World :=
  ⟨[(0, [("Stats", .stats sampleStats), ("Skills", .skills Skills.init),
         ("Equipment", .equipment sampleEquipment)]),
    (1, [("Item", .item sampleItem)])],
   [("Stats", [0]), ("Skills", [0]), ("Equipment", [0]), ("Item", [1])], 2⟩

/-- A dungeon map that already holds an area at `(0, 0)` (with an empty
template, which keeps the witness computation small). -/
def cachedDemoMap : DungeonMap :=
  ⟨[((0, 0), Area.init 0 0 entranceAreaData ⟨[], [], none⟩)], []⟩

/-- A world whose equipped item carries a negative hit-point bonus:
entity 0 has 5 primary hit points and wears a cursed amulet (entity 1)
with a `hp` bonus of -10. -/
def cursedItem : Item := ⟨"Cursed Amulet", 1, "neck", [("hp", -10)]⟩

def cursedStats : Stats := Stats.init 10 10 10 5

def cursedWorld : World :=
  ⟨[(0, [("Stats", .stats cursedStats), ("Skills", .skills Skills.init),
         ("Equipment", .equipment ⟨[("neck", some 1)]⟩)]),
    (1, [("Item", .item cursedItem)])],
   [("Stats", [0]), ("Skills", [0]), ("Equipment", [0]), ("Item", [1])], 2⟩

/-! ## Theorems

Supporting lemmas about the dict model, then one theorem (with witness
where the statement carries hypotheses) per specification claim. -/

theorem dlookup_dinsert_self {κ β : Type} [DecidableEq κ] (k : κ) (v : β)
    (l : List (κ × β)) : dlookup k (dinsert k v l) = some v := by
  induction l with
  | nil => simp [dlookup, dinsert]
  | cons p l ih =>
    by_cases h : p.1 = k
    · simp [dinsert, dlookup, h]
    · simp [dinsert, dlookup, h, ih]

theorem dlookup_dinsert_ne {κ β : Type} [DecidableEq κ] {k k' : κ} (h : k' ≠ k)
    (v : β) (l : List (κ × β)) : dlookup k (dinsert k' v l) = dlookup k l := by
  induction l with
  | nil => simp [dlookup, dinsert, h]
  | cons p l ih =>
    by_cases hp : p.1 = k'
    · simp [dinsert, dlookup, hp, h]
    · by_cases hk : p.1 = k
      · simp [dinsert, dlookup, hp, hk, Ne.symm h]
      · simp [dinsert, dlookup, hp, hk, ih]

theorem dlookup_dremove_self {κ β : Type} [DecidableEq κ] (k : κ)
    (l : List (κ × β)) : dlookup k (dremove k l) = none := by
  induction l with
  | nil => simp [dlookup, dremove]
  | cons p l ih =>
    by_cases h : p.1 = k
    · simpa [dremove, List.filter, h] using ih
    · simpa [dremove, List.filter, h, dlookup] using ih

theorem dinsert_dinsert_same {κ β : Type} [DecidableEq κ] (k : κ) (v v' : β)
    (l : List (κ × β)) : dinsert k v (dinsert k v' l) = dinsert k v l := by
  induction l with
  | nil => simp [dinsert]
  | cons p l ih =>
    by_cases h : p.1 = k
    · simp [dinsert, h]
    · simp [dinsert, h, ih]

theorem mem_dinsert {κ β : Type} [DecidableEq κ] {k : κ} {v : β} {l : List (κ × β)}
    {p : κ × β} (h : p ∈ dinsert k v l) : p = (k, v) ∨ p ∈ l := by
  induction l with
  | nil => simpa [dinsert] using h
  | cons q l ih =>
    by_cases hq : q.1 = k
    · simp only [dinsert, if_pos hq, List.mem_cons] at h
      rcases h with h | h
      · exact .inl h
      · exact .inr (List.mem_cons_of_mem q h)
    · simp only [dinsert, if_neg hq, List.mem_cons] at h
      rcases h with h | h
      · exact .inr (h ▸ List.mem_cons_self q l)
      · rcases ih h with h' | h'
        · exact .inl h'
        · exact .inr (List.mem_cons_of_mem q h')

/-- If a component was fetched, the entity's component dict exists. -/
theorem get_component_entity {w : World} {pid : Nat} {n : String} {c : Component}
    (h : w.get_component pid n = some c) :
    ∃ comps, dlookup pid w.entities = some comps ∧ dlookup n comps = some c := by
  unfold World.get_component at h
  cases hl : dlookup pid w.entities with
  | none => rw [hl] at h; cases h
  | some comps => rw [hl] at h; exact ⟨comps, rfl, h⟩

theorem setComp_get_self {w : World} {pid : Nat} {comps} (c : Component)
    (h : dlookup pid w.entities = some comps) :
    (setComp w pid c).get_component pid (componentName c) = some c := by
  simp [setComp, World.get_component, h, dlookup_dinsert_self]

theorem setComp_get_ne_name {w : World} {pid : Nat} {c : Component} {n : String}
    (h : n ≠ componentName c) (id : Nat) :
    (setComp w pid c).get_component id n = w.get_component id n := by
  unfold setComp World.get_component
  cases hl : dlookup pid w.entities with
  | none => rfl
  | some comps =>
    by_cases hid : id = pid
    · subst hid
      simp [hl, dlookup_dinsert_self, dlookup_dinsert_ne (Ne.symm h)]
    · simp [hl, dlookup_dinsert_ne (fun he => hid he.symm)]

theorem setComp_entities_some {w : World} {pid : Nat} {comps} (c : Component)
    (h : dlookup pid w.entities = some comps) :
    dlookup pid (setComp w pid c).entities =
      some (dinsert (componentName c) c comps) := by
  simp [setComp, h, dlookup_dinsert_self]

/-- Writing a component twice overwrites in place. -/
theorem setComp_setComp {w : World} {pid : Nat} {comps} (c c' : Component)
    (hname : componentName c' = componentName c)
    (h : dlookup pid w.entities = some comps) :
    setComp (setComp w pid c) pid c' = setComp w pid c' := by
  simp only [setComp, h, dlookup_dinsert_self]
  rw [hname, dinsert_dinsert_same, dinsert_dinsert_same]

/-- A missing index set makes the whole generator raise `KeyError`. -/
theorem lookupAll_none {w : World} {missing : String} {names : List String}
    (hm : missing ∈ names) (hno : dlookup missing w.components = none) :
    lookupAll w names = none := by
  induction names with
  | nil => cases hm
  | cons n rest ih =>
    rcases List.mem_cons.mp hm with h | h
    · subst h; simp [lookupAll, hno]
    · unfold lookupAll
      rw [ih h]
      cases dlookup n w.components <;> rfl

/-- C8: `EntityStore` queries never throw: `get_component` on a
non-existent entity or an absent component returns the explicit absent
value `none`; `get_entities_with` returns the empty set whenever a
requested component type has no registrants; and after
`remove_entity(id)` every `get_component` for that id reports absent. -/
theorem world_queries_never_throw (w : World) (id : Nat) (name missing : String)
    (names : List String) :
    (dlookup id w.entities = none → w.get_component id name = none) ∧
    (∀ comps, dlookup id w.entities = some comps → dlookup name comps = none →
      w.get_component id name = none) ∧
    (missing ∈ names → dlookup missing w.components = none →
      w.get_entities_with names = []) ∧
    (w.remove_entity id).get_component id name = none := by
  refine ⟨?_, ?_, ?_, ?_⟩
  · intro h; simp [World.get_component, h]
  · intro comps h hn; simp [World.get_component, h, hn]
  · intro hm hno
    simp [World.get_entities_with, lookupAll_none hm hno]
  · unfold World.remove_entity
    cases hl : dlookup id w.entities with
    | none => simp [World.get_component, hl]
    | some comps => simp [World.get_component, dlookup_dremove_self]

/-- C8 witness: concrete store, missing entity 5 and unregistered type. -/
theorem world_queries_never_throw_witness :
    sampleWorld.get_component 5 "Stats" = none ∧
    sampleWorld.get_entities_with ["Stats", "Ghost"] = [] ∧
    (sampleWorld.remove_entity 5).get_component 5 "Stats" = none := by
  obtain ⟨h1, _, h3, h4⟩ :=
    world_queries_never_throw sampleWorld 5 "Stats" "Ghost" ["Stats", "Ghost"]
  exact ⟨h1 (by decide), h3 (by decide) (by decide), h4⟩

/-- C9: `add_component` raises `KeyError` exactly on a missing entity id
(also one already removed), and it is the only store operation that
throws on a missing id: `remove_entity` is a no-op there and
`get_component` reports absence. -/
theorem add_component_keyerror (w : World) (id : Nat) (c c2 : Component)
    (name : String) :
    (w.add_component id c = none ↔ dlookup id w.entities = none) ∧
    (w.remove_entity id).add_component id c2 = none ∧
    (dlookup id w.entities = none →
      w.remove_entity id = w ∧ w.get_component id name = none) := by
  have hadd : ∀ w' : World, dlookup id w'.entities = none →
      w'.add_component id c2 = none := by
    intro w' h; simp [World.add_component, h]
  refine ⟨?_, ?_, ?_⟩
  · unfold World.add_component
    cases hl : dlookup id w.entities with
    | none => simp
    | some comps => simp
  · apply hadd
    unfold World.remove_entity
    cases hl : dlookup id w.entities with
    | none => simp [hl]
    | some comps => simp [dlookup_dremove_self]
  · intro h
    constructor
    · unfold World.remove_entity; rw [h]
    · simp [World.get_component, h]

/-- C9 witness: entity 7 does not exist in the concrete store. -/
theorem add_component_keyerror_witness :
    sampleWorld.add_component 7 (.other "Tag") = none ∧
    (sampleWorld.remove_entity 7).add_component 7 (.other "Tag") = none ∧
    sampleWorld.remove_entity 7 = sampleWorld := by
  obtain ⟨h1, h2, h3⟩ :=
    add_component_keyerror sampleWorld 7 (.other "Tag") (.other "Tag") "Stats"
  exact ⟨h1.mpr (by decide), h2, (h3 (by decide)).1⟩

/-- Whatever the choice draw, the selected template for a cardinal
required exit exposes that exit (the catalog always offers at least one
matching non-start template, so the degraded fallback is never taken for
these directions). -/
theorem chooseTemplateKey_exit {d : String} (c : Nat)
    (hd : d ∈ ["north", "south", "east", "west"]) :
    d ∈ ((dlookup (chooseTemplateKey (some d) c) TEMPLATES).getD
        startRoomTemplate).exits.map (fun e => e.1) := by
  have h1 : c % 1 = 0 := Nat.mod_one c
  fin_cases hd
  · rcases Nat.mod_two_eq_zero_or_one c with h | h <;>
      · rw [show chooseTemplateKey (some "north") c =
          ["corridor_ns", "four_way_room"].getD (c % 2) "start_room" from rfl, h]
        decide
  · rcases Nat.mod_two_eq_zero_or_one c with h | h <;>
      · rw [show chooseTemplateKey (some "south") c =
          ["corridor_ns", "four_way_room"].getD (c % 2) "start_room" from rfl, h]
        decide
  · rw [show chooseTemplateKey (some "east") c =
        ["four_way_room"].getD (c % 1) "start_room" from rfl, h1]
    decide
  · rw [show chooseTemplateKey (some "west") c =
        ["four_way_room"].getD (c % 1) "start_room" from rfl, h1]
    decide

/-- C6: a `generate_area(x, y, required_exit=d)` call that creates a new
non-entrance area returns an area whose template exposes exit direction
`d`, for every cardinal direction `d` and every random stream. -/
theorem generate_area_required_exit (dm : DungeonMap) (x y : Int) (d : String)
    (rng : Rng) (hnew : dlookup (x, y) dm.areas = none)
    (hd : d ∈ ["north", "south", "east", "west"]) :
    d ∈ (dm.generate_area x y false (some d) rng).1.template.exits.map
        (fun e => e.1) := by
  simp only [DungeonMap.generate_area, hnew, Area.init, Bool.false_eq_true, if_false]
  exact chooseTemplateKey_exit _ hd

/-- C6 witness: an empty map, entering `(0, -1)` from the south. -/
theorem generate_area_required_exit_witness :
    "north" ∈ (DungeonMap.generate_area ⟨[], []⟩ 0 (-1) false (some "north")
      [37, 1]).1.template.exits.map (fun e => e.1) :=
  generate_area_required_exit ⟨[], []⟩ 0 (-1) "north" [37, 1] (by rfl) (by decide)

/-- C7: a coordinate that already holds a generated area short-circuits:
the cached area object is returned, the `areas` and `world_tiles` maps
are left untouched and no random draw is consumed; moreover every
`generate_area` call leaves its area cached at its coordinate, so
repeated calls return the identical object. -/
theorem generate_area_cached (dm : DungeonMap) (x y : Int) (a : Area)
    (ie ie2 : Bool) (re re2 : Option String) (rng rng2 : Rng) :
    (dlookup (x, y) dm.areas = some a →
      dm.generate_area x y ie re rng = (a, dm, rng)) ∧
    dlookup (x, y) (dm.generate_area x y ie2 re2 rng2).2.1.areas =
      some (dm.generate_area x y ie2 re2 rng2).1 := by
  constructor
  · intro h
    simp [DungeonMap.generate_area, h]
  · cases hl : dlookup (x, y) dm.areas with
    | some a0 => simp [DungeonMap.generate_area, hl]
    | none => simp [DungeonMap.generate_area, hl, dlookup_dinsert_self]

/-- C7 witness: a map already holding an area at `(0, 0)` returns it
unchanged together with the untouched map and stream. -/
theorem generate_area_cached_witness :
    cachedDemoMap.generate_area 0 0 false (some "north") [7, 8] =
      (Area.init 0 0 entranceAreaData ⟨[], [], none⟩, cachedDemoMap, [7, 8]) :=
  (generate_area_cached cachedDemoMap 0 0
    (Area.init 0 0 entranceAreaData ⟨[], [], none⟩) false false
    (some "north") (some "north") [7, 8] [7, 8]).1 (by rfl)

/-- One loop iteration adds, field by field, exactly the slot's
contribution. -/
theorem applyItemStep_eq (w : World) (s : Stats) (oid : Option Nat) :
    applyItemStep w s oid = { s with
      adj_str := s.adj_str + itemContribution w "str" oid
      adj_dex := s.adj_dex + itemContribution w "dex" oid
      adj_int := s.adj_int + itemContribution w "int" oid
      max_hp := s.max_hp + itemContribution w "hp" oid
      defense := s.defense + itemContribution w "def" oid
      damage_mod := s.damage_mod + itemContribution w "dmg" oid } := by
  cases oid with
  | none => simp [applyItemStep, itemContribution]
  | some id =>
    by_cases h0 : id = 0
    · simp [applyItemStep, itemContribution, h0]
    · cases hit : w.get_component id "Item" with
      | none => simp [applyItemStep, itemContribution, h0, hit]
      | some c =>
        cases c with
        | item it =>
          by_cases hb : it.bonuses = []
          · simp [applyItemStep, itemContribution, h0, hit, hb]
          · simp [applyItemStep, itemContribution, applyBonuses, h0, hit, hb]
        | stats s2 => simp [applyItemStep, itemContribution, h0, hit]
        | skills s2 => simp [applyItemStep, itemContribution, h0, hit]
        | equipment e2 => simp [applyItemStep, itemContribution, h0, hit]
        | other n2 => simp [applyItemStep, itemContribution, h0, hit]

/-- The aggregation loop adds, field by field, exactly the bonus sums of
the slot list. -/
theorem applyItems_eq (w : World) (l : List (Option Nat)) (s : Stats) :
    applyItems w s l = { s with
      adj_str := s.adj_str + itemsSum w "str" l
      adj_dex := s.adj_dex + itemsSum w "dex" l
      adj_int := s.adj_int + itemsSum w "int" l
      max_hp := s.max_hp + itemsSum w "hp" l
      defense := s.defense + itemsSum w "def" l
      damage_mod := s.damage_mod + itemsSum w "dmg" l } := by
  induction l generalizing s with
  | nil => simp [applyItems, itemsSum]
  | cons oid rest ih =>
    show applyItems w (applyItemStep w s oid) rest = _
    rw [ih, applyItemStep_eq]
    simp [itemsSum, add_assoc]

/-- The recompute body as one record: every derived field is rebuilt
from the primaries plus the equipped bonus sums, and `current_hp` is
capped at the rebuilt `max_hp`. -/
theorem recomputeStats_eq (w : World) (ps : Stats) (eq : Equipment) :
    recomputeStats w ps eq = { ps with
      adj_str := ps.primary_str + itemsSum w "str" (eq.slots.map (fun p => p.2))
      adj_dex := ps.primary_dex + itemsSum w "dex" (eq.slots.map (fun p => p.2))
      adj_int := ps.primary_int + itemsSum w "int" (eq.slots.map (fun p => p.2))
      max_hp := ps.primary_hp + itemsSum w "hp" (eq.slots.map (fun p => p.2))
      defense := itemsSum w "def" (eq.slots.map (fun p => p.2))
      damage_mod := itemsSum w "dmg" (eq.slots.map (fun p => p.2))
      current_hp := min ps.current_hp
        (ps.primary_hp + itemsSum w "hp" (eq.slots.map (fun p => p.2))) } := by
  simp only [recomputeStats, applyItems_eq, zero_add]

/-- Source: `update_player_stats` on an entity with both components writes back
the recomputed record. -/
theorem update_player_stats_eq {w : World} {pid : Nat} {ps : Stats}
    {eq : Equipment}
    (hs : w.get_component pid "Stats" = some (.stats ps))
    (he : w.get_component pid "Equipment" = some (.equipment eq)) :
    update_player_stats w pid = setComp w pid (.stats (recomputeStats w ps eq)) := by
  simp only [update_player_stats, hs, he]

/-- Writing a `Stats` component does not disturb any `Item` lookup, so
a slot's contribution is unchanged. -/
theorem itemContribution_setComp_stats (w : World) (pid : Nat) (s : Stats)
    (k : String) (oid : Option Nat) :
    itemContribution (setComp w pid (.stats s)) k oid = itemContribution w k oid := by
  cases oid with
  | none => rfl
  | some i =>
    simp only [itemContribution]
    rw [@setComp_get_ne_name w pid (Component.stats s) "Item"
      (show ("Item" : String) ≠ "Stats" by decide) i]

/-- Writing a `Stats` component leaves every bonus sum unchanged. -/
theorem itemsSum_setComp_stats (w : World) (pid : Nat) (s : Stats) (k : String)
    (l : List (Option Nat)) :
    itemsSum (setComp w pid (.stats s)) k l = itemsSum w k l := by
  induction l with
  | nil => rfl
  | cons oid rest ih =>
    unfold itemsSum
    rw [ih, itemContribution_setComp_stats]

/-- A non-falsy occupied slot contributes exactly its item's bonus. -/
theorem itemContribution_eq_specItemBonus (w : World) (k : String) {i : Nat}
    (hi : i ≠ 0) : itemContribution w k (some i) = specItemBonus w k i := by
  simp only [itemContribution, specItemBonus, if_neg hi]
  cases hit : w.get_component i "Item" with
  | none => rfl
  | some c =>
    cases c with
    | item it =>
      by_cases hb : it.bonuses = []
      · simp [hb, Item.bget, dlookup]
      · simp [hb]
    | stats s2 => rfl
    | skills s2 => rfl
    | equipment e2 => rfl
    | other n2 => rfl

/-- When no slot holds the falsy id 0, the loop's sum coincides with the
specification-level sum over all equipped items. -/
theorem itemsSum_eq_equippedBonusSum (w : World) (eq : Equipment) (k : String)
    (h0 : ∀ p ∈ eq.slots, p.2 ≠ some 0) :
    itemsSum w k (eq.slots.map (fun p => p.2)) = equippedBonusSum w eq k := by
  unfold equippedBonusSum
  have main : ∀ l : List (Option Nat), some 0 ∉ l →
      itemsSum w k l = ((l.filterMap id).map (specItemBonus w k)).sum := by
    intro l hl
    induction l with
    | nil => rfl
    | cons oid rest ih =>
      have hrest : some 0 ∉ rest := fun h => hl (List.mem_cons_of_mem _ h)
      cases oid with
      | none => simpa [itemsSum, itemContribution] using ih hrest
      | some i =>
        have hi : i ≠ 0 := by
          intro h; exact hl (by simp [h])
        simp only [itemsSum, List.filterMap_cons, id_def, List.map_cons,
          List.sum_cons, itemContribution_eq_specItemBonus w k hi, ih hrest]
  apply main
  intro hmem
  rcases List.mem_map.mp hmem with ⟨p, hp, hp2⟩
  exact h0 p hp hp2

/-- C4: `update_player_stats` fully recomputes the six derived values
from the primaries plus the summed bonuses of all equipped items (the
falsy entity id 0 is never an equipped item), and running it twice with
no equipment change equals running it once. -/
theorem update_player_stats_recompute_idempotent (w : World) (pid : Nat)
    (stats : Stats) (eq : Equipment)
    (hs : w.get_component pid "Stats" = some (.stats stats))
    (he : w.get_component pid "Equipment" = some (.equipment eq))
    (h0 : ∀ p ∈ eq.slots, p.2 ≠ some 0) :
    (∃ stats', (update_player_stats w pid).get_component pid "Stats" =
        some (.stats stats') ∧
      stats'.adj_str = stats.primary_str + equippedBonusSum w eq "str" ∧
      stats'.adj_dex = stats.primary_dex + equippedBonusSum w eq "dex" ∧
      stats'.adj_int = stats.primary_int + equippedBonusSum w eq "int" ∧
      stats'.max_hp = stats.primary_hp + equippedBonusSum w eq "hp" ∧
      stats'.defense = equippedBonusSum w eq "def" ∧
      stats'.damage_mod = equippedBonusSum w eq "dmg") ∧
    update_player_stats (update_player_stats w pid) pid =
      update_player_stats w pid := by
  obtain ⟨comps, hcomps, -⟩ := get_component_entity hs
  have hupd := update_player_stats_eq hs he
  have hself : (update_player_stats w pid).get_component pid "Stats" =
      some (.stats (recomputeStats w stats eq)) := by
    rw [hupd]
    exact @setComp_get_self w pid comps _ hcomps
  constructor
  · refine ⟨recomputeStats w stats eq, hself, ?_, ?_, ?_, ?_, ?_, ?_⟩ <;>
      rw [recomputeStats_eq, ← itemsSum_eq_equippedBonusSum w eq _ h0]
  · have he' : (update_player_stats w pid).get_component pid "Equipment" =
        some (.equipment eq) := by
      rw [hupd]
      exact (@setComp_get_ne_name w pid (Component.stats (recomputeStats w stats eq))
        "Equipment" (show ("Equipment" : String) ≠ "Stats" by decide) pid).trans he
    have hupd2 := update_player_stats_eq hself he'
    rw [hupd2, hupd]
    have hre : recomputeStats (setComp w pid (.stats (recomputeStats w stats eq)))
        (recomputeStats w stats eq) eq = recomputeStats w stats eq := by
      simp only [recomputeStats_eq, itemsSum_setComp_stats]
      simp [min_assoc, min_self]
    rw [hre]
    exact setComp_setComp _ _ rfl hcomps

/-- C4 witness: the sample world with a sword equipped. -/
theorem update_player_stats_recompute_idempotent_witness :
    (∃ stats', (update_player_stats sampleWorld 0).get_component 0 "Stats" =
        some (.stats stats') ∧
      stats'.adj_str = sampleStats.primary_str +
        equippedBonusSum sampleWorld sampleEquipment "str" ∧
      stats'.adj_dex = sampleStats.primary_dex +
        equippedBonusSum sampleWorld sampleEquipment "dex" ∧
      stats'.adj_int = sampleStats.primary_int +
        equippedBonusSum sampleWorld sampleEquipment "int" ∧
      stats'.max_hp = sampleStats.primary_hp +
        equippedBonusSum sampleWorld sampleEquipment "hp" ∧
      stats'.defense = equippedBonusSum sampleWorld sampleEquipment "def" ∧
      stats'.damage_mod = equippedBonusSum sampleWorld sampleEquipment "dmg") ∧
    update_player_stats (update_player_stats sampleWorld 0) 0 =
      update_player_stats sampleWorld 0 :=
  update_player_stats_recompute_idempotent sampleWorld 0 sampleStats
    sampleEquipment rfl rfl (by decide)

/-- C5 (amended): after `update_player_stats`, `current_hp ≤ max_hp`
holds and `current_hp` never increases: it equals
`min(current_hp_before, new max_hp)`, so it is left unchanged whenever
`current_hp ≤ new max_hp` and only capped down (to the new `max_hp`)
when `max_hp` shrank below it; it never drops below zero provided the
recomputed `max_hp` is nonnegative — with a negative recomputed `max_hp`
(possible under negative item hit-point bonuses) the cap itself takes
`current_hp` below zero. -/
theorem update_player_stats_hp_clamp (w : World) (pid : Nat)
    (stats : Stats) (eq : Equipment)
    (hs : w.get_component pid "Stats" = some (.stats stats))
    (he : w.get_component pid "Equipment" = some (.equipment eq)) :
    ∃ stats', (update_player_stats w pid).get_component pid "Stats" =
        some (.stats stats') ∧
      stats'.current_hp = min stats.current_hp stats'.max_hp ∧
      stats'.current_hp ≤ stats'.max_hp ∧
      stats'.current_hp ≤ stats.current_hp ∧
      (stats.current_hp ≤ stats'.max_hp →
        stats'.current_hp = stats.current_hp) ∧
      (stats'.max_hp < stats.current_hp →
        stats'.current_hp = stats'.max_hp) ∧
      (0 ≤ stats.current_hp → 0 ≤ stats'.max_hp → 0 ≤ stats'.current_hp) := by
  obtain ⟨comps, hcomps, -⟩ := get_component_entity hs
  refine ⟨recomputeStats w stats eq, ?_, ?_, ?_, ?_, ?_, ?_, ?_⟩
  · rw [update_player_stats_eq hs he]
    exact @setComp_get_self w pid comps _ hcomps
  · rw [recomputeStats_eq]
  · rw [recomputeStats_eq]; exact min_le_right _ _
  · rw [recomputeStats_eq]; exact min_le_left _ _
  · rw [recomputeStats_eq]
    intro hc
    simpa using min_eq_left hc
  · rw [recomputeStats_eq]
    intro hc
    simpa using min_eq_right (le_of_lt hc)
  · rw [recomputeStats_eq]
    intro hc hm
    simpa using le_min hc hm

/-- C5 witness: the sample world (positive bonuses, hp stays at its
previous value under the cap). -/
theorem update_player_stats_hp_clamp_witness :
    ∃ stats', (update_player_stats sampleWorld 0).get_component 0 "Stats" =
        some (.stats stats') ∧
      stats'.current_hp = min sampleStats.current_hp stats'.max_hp ∧
      stats'.current_hp ≤ stats'.max_hp ∧
      stats'.current_hp ≤ sampleStats.current_hp ∧
      (sampleStats.current_hp ≤ stats'.max_hp →
        stats'.current_hp = sampleStats.current_hp) ∧
      (stats'.max_hp < sampleStats.current_hp →
        stats'.current_hp = stats'.max_hp) ∧
      (0 ≤ sampleStats.current_hp → 0 ≤ stats'.max_hp →
        0 ≤ stats'.current_hp) :=
  update_player_stats_hp_clamp sampleWorld 0 sampleStats sampleEquipment rfl rfl

/-- C5 counterexample: the cursed world starts at `current_hp = 5 ≥ 0`,
and one recomputation (cursed amulet, hp bonus -10) clamps `current_hp`
to `-5 < 0` — the recomputation does silently drop `current_hp` below
zero, refuting the claim as stated. -/
theorem update_player_stats_hp_drop_counterexample :
    currentHpOf cursedWorld 0 = some 5 ∧
    currentHpOf (update_player_stats cursedWorld 0) 0 = some (-5) ∧
    (-5 : Int) < 0 := by decide

theorem statKeys_cases {name : String} (h : name ∈ statKeys) :
    name = "str" ∨ name = "dex" ∨ name = "int" := by
  simpa [statKeys] using h

theorem xpOf_setXp_self {name : String} (h : name ∈ statKeys) (s : Stats)
    (t : List Nat) : (s.setXp name t).xpOf name = t := by
  rcases statKeys_cases h with rfl | rfl | rfl <;>
    simp [Stats.setXp, Stats.xpOf]

theorem setXp_primaryOf (s : Stats) (name k : String) (t : List Nat) :
    (s.setXp name t).primaryOf k = s.primaryOf k := by
  unfold Stats.setXp
  split <;> (try split) <;> simp [Stats.primaryOf]

theorem setPrimary_xpOf (s : Stats) (name k : String) (v : Int) :
    (s.setPrimary name v).xpOf k = s.xpOf k := by
  unfold Stats.setPrimary
  split <;> (try split) <;> simp [Stats.xpOf]

theorem setPrimary_primaryOf_self {name : String} (h : name ∈ statKeys)
    (s : Stats) (v : Int) : (s.setPrimary name v).primaryOf name = v := by
  rcases statKeys_cases h with rfl | rfl | rfl <;>
    simp [Stats.setPrimary, Stats.primaryOf]

theorem setPrimary_primaryOf_ne {name k : String} (hn : name ∈ statKeys)
    (hk : k ∈ statKeys) (hne : k ≠ name) (s : Stats) (v : Int) :
    (s.setPrimary name v).primaryOf k = s.primaryOf k := by
  rcases statKeys_cases hn with rfl | rfl | rfl <;>
    rcases statKeys_cases hk with rfl | rfl | rfl <;>
    simp_all [Stats.setPrimary, Stats.primaryOf]

theorem setXp_xpOf_ne {name k : String} (hn : name ∈ statKeys)
    (hk : k ∈ statKeys) (hne : k ≠ name) (s : Stats) (t : List Nat) :
    (s.setXp name t).xpOf k = s.xpOf k := by
  rcases statKeys_cases hn with rfl | rfl | rfl <;>
    rcases statKeys_cases hk with rfl | rfl | rfl <;>
    simp_all [Stats.setXp, Stats.xpOf]

theorem recompute_primaryOf (w : World) (s : Stats) (eq : Equipment) (k : String) :
    (recomputeStats w s eq).primaryOf k = s.primaryOf k := by
  unfold Stats.primaryOf
  split <;> (try split) <;> simp [recomputeStats_eq]

theorem recompute_xpOf (w : World) (s : Stats) (eq : Equipment) (k : String) :
    (recomputeStats w s eq).xpOf k = s.xpOf k := by
  unfold Stats.xpOf
  split <;> (try split) <;> simp [recomputeStats_eq]

theorem adjOf_mem {s : Stats} {n : String} {a : Int}
    (h : s.adjOf n = some a) : n ∈ statKeys := by
  unfold Stats.adjOf at h
  by_cases h1 : n = "str"
  · simp [statKeys, h1]
  · by_cases h2 : n = "dex"
    · simp [statKeys, h2]
    · by_cases h3 : n = "int"
      · simp [statKeys, h3]
      · simp [h1, h2, h3] at h

theorem dlookup_mem {κ β : Type} [DecidableEq κ] {k : κ} {v : β}
    {l : List (κ × β)} (h : dlookup k l = some v) : (k, v) ∈ l := by
  induction l with
  | nil => cases h
  | cons p rest ih =>
    obtain ⟨a, b⟩ := p
    by_cases hp : a = k
    · subst hp
      have hb : b = v := by simpa [dlookup] using h
      subst hb
      exact List.mem_cons_self _ _
    · have h' : dlookup k rest = some v := by simpa [dlookup, hp] using h
      exact List.mem_cons_of_mem _ (ih h')

/-! Track lemmas: filling preserves shape, counts move one slot at a
time, and surplus fills are no-ops. -/

theorem setFirstZero_of_not_mem {t : List Nat} (h : 0 ∉ t) :
    setFirstZero t = t := by
  induction t with
  | nil => rfl
  | cons x rest ih =>
    have hx : x ≠ 0 := fun he => h (by simp [he])
    have hr : 0 ∉ rest := fun hm => h (List.mem_cons_of_mem x hm)
    simp [setFirstZero, hx, ih hr]

theorem setFirstZero_length (t : List Nat) :
    (setFirstZero t).length = t.length := by
  induction t with
  | nil => rfl
  | cons x rest ih =>
    by_cases hx : x = 0 <;> simp [setFirstZero, hx, ih]

theorem setFirstZero_mem {t : List Nat} (h : ∀ x ∈ t, x = 0 ∨ x = 1) :
    ∀ x ∈ setFirstZero t, x = 0 ∨ x = 1 := by
  induction t with
  | nil => simp [setFirstZero]
  | cons y rest ih =>
    intro x hx
    by_cases hy : y = 0
    · subst hy
      simp only [setFirstZero, reduceIte, List.mem_cons] at hx
      rcases hx with h1 | hx
      · exact .inr h1
      · exact h x (List.mem_cons_of_mem 0 hx)
    · simp only [setFirstZero, hy, if_false, ite_false, List.mem_cons] at hx
      rcases hx with h1 | hx
      · exact h x (by rw [h1]; exact List.mem_cons_self y rest)
      · exact ih (fun z hz => h z (List.mem_cons_of_mem y hz)) x hx

theorem trackWF_setFirstZero {t : List Nat} (h : TrackWF t) :
    TrackWF (setFirstZero t) :=
  ⟨by rw [setFirstZero_length]; exact h.1, setFirstZero_mem h.2⟩

theorem trackWF_iterate {t : List Nat} (h : TrackWF t) (n : Nat) :
    TrackWF (setFirstZero^[n] t) := by
  induction n generalizing t with
  | zero => exact h
  | succ n ih =>
    rw [Function.iterate_succ_apply]
    exact ih (trackWF_setFirstZero h)

theorem trackWF_replicate : TrackWF (List.replicate 10 0) := by decide

theorem setFirstZero_count_zero {t : List Nat} (h : 0 ∈ t) :
    (setFirstZero t).count 0 + 1 = t.count 0 := by
  induction t with
  | nil => cases h
  | cons x rest ih =>
    by_cases hx : x = 0
    · subst hx
      simp [setFirstZero, List.count_cons]
    · have hr : 0 ∈ rest := by
        rcases List.mem_cons.mp h with he | hm
        · exact absurd he.symm hx
        · exact hm
      simp only [setFirstZero, if_neg hx, List.count_cons]
      rw [← ih hr]
      omega

theorem setFirstZero_count_one {t : List Nat} (h : 0 ∈ t) :
    (setFirstZero t).count 1 = t.count 1 + 1 := by
  induction t with
  | nil => cases h
  | cons x rest ih =>
    by_cases hx : x = 0
    · subst hx
      simp [setFirstZero, List.count_cons]
    · have hr : 0 ∈ rest := by
        rcases List.mem_cons.mp h with he | hm
        · exact absurd he.symm hx
        · exact hm
      simp only [setFirstZero, if_neg hx, List.count_cons]
      rw [ih hr]
      omega

theorem mem_setFirstZero_of_two {t : List Nat} (h : 2 ≤ t.count 0) :
    0 ∈ setFirstZero t := by
  have hm : 0 ∈ t := List.count_pos_iff.mp (by omega)
  have hc := setFirstZero_count_zero hm
  exact List.count_pos_iff.mp (by omega)

/-- Surplus pips are discarded: filling more often than there are empty
slots is the same as filling exactly the number of empty slots. -/
theorem setFirstZero_iterate_min (t : List Nat) (n : Nat) :
    setFirstZero^[n] t = setFirstZero^[min n (t.count 0)] t := by
  induction n generalizing t with
  | zero => simp
  | succ n ih =>
    by_cases h0 : 0 ∈ t
    · have hc : 0 < t.count 0 := List.count_pos_iff.mpr h0
      have hsc := setFirstZero_count_zero h0
      rw [Function.iterate_succ_apply, ih (setFirstZero t), hsc.symm]
      have hmin : min (n + 1) ((setFirstZero t).count 0 + 1) =
          min n ((setFirstZero t).count 0) + 1 := by omega
      rw [hmin, Function.iterate_succ_apply]
    · have hc : t.count 0 = 0 := by
        rcases Nat.eq_zero_or_pos (t.count 0) with h | h
        · exact h
        · exact absurd (List.count_pos_iff.mp h) h0
      rw [Function.iterate_succ_apply, setFirstZero_of_not_mem h0, ih t, hc]
      simp

/-- Source: `award_experience` on a characteristic name: fill the (doubled when
attuned) pips into the track, then either store the filled track or
level up, reset and recompute. -/
theorem award_experience_stat {w : World} {pid : Nat} {stats : Stats}
    (name : String) (pips : Nat)
    (hs : w.get_component pid "Stats" = some (.stats stats))
    (hkey : pyLower name ∈ statKeys) :
    award_experience w pid name pips =
      (if 0 ∈ setFirstZero^[if pyLower name ∈ stats.attuned_stats then
            pips * 2 else pips] (stats.xpOf (pyLower name)) then
        some (setComp w pid (.stats (stats.setXp (pyLower name)
          (setFirstZero^[if pyLower name ∈ stats.attuned_stats then
            pips * 2 else pips] (stats.xpOf (pyLower name))))))
      else
        some (update_player_stats (setComp w pid (.stats
          (((stats.setXp (pyLower name)
              (setFirstZero^[if pyLower name ∈ stats.attuned_stats then
                pips * 2 else pips] (stats.xpOf (pyLower name)))).setPrimary
              (pyLower name) (stats.primaryOf (pyLower name) + 5)).setXp
            (pyLower name) (List.replicate 10 0)))) pid)) := by
  simp only [award_experience, hs, hkey, if_true]

/-- Source: `award_experience` on a skill name: two pips per award, doubled
again when the skill is attuned. -/
theorem award_experience_skill {w : World} {pid : Nat} {stats : Stats}
    {skills : Skills} (name : String) (pips : Nat) {sd : SkillData}
    (hs : w.get_component pid "Stats" = some (.stats stats))
    (hk : w.get_component pid "Skills" = some (.skills skills))
    (hkey : pyLower name ∉ statKeys)
    (hsd : dlookup name skills.skills = some sd) :
    award_experience w pid name pips =
      (if 0 ∈ setFirstZero^[(if sd.attuned then pips * 2 else pips) * 2]
          sd.xp_pips then
        some (setComp w pid (.skills ⟨dinsert name
          { sd with xp_pips := setFirstZero^[(if sd.attuned then
              pips * 2 else pips) * 2] sd.xp_pips } skills.skills⟩))
      else
        some (setComp w pid (.skills ⟨dinsert name
          { sd with bonus := sd.bonus + 5
                    xp_pips := List.replicate 10 0 } skills.skills⟩))) := by
  simp only [award_experience, hs, hk, hsd, hkey, if_false, ite_false]

/-- Source: `award_experience` on a name that is neither a characteristic nor
one of the entity's skills changes nothing. -/
theorem award_experience_noskill {w : World} {pid : Nat} {stats : Stats}
    {skills : Skills} (name : String) (pips : Nat)
    (hs : w.get_component pid "Stats" = some (.stats stats))
    (hk : w.get_component pid "Skills" = some (.skills skills))
    (hkey : pyLower name ∉ statKeys)
    (hsd : dlookup name skills.skills = none) :
    award_experience w pid name pips = some w := by
  simp only [award_experience, hs, hk, hsd, hkey, if_false, ite_false]

theorem hasCore_setComp_stats {w : World} {pid : Nat} (h : HasCore w pid)
    (s : Stats) : HasCore (setComp w pid (.stats s)) pid := by
  obtain ⟨⟨s0, hs⟩, ⟨k0, hk⟩⟩ := h
  obtain ⟨comps, hcomps, -⟩ := get_component_entity hs
  exact ⟨⟨s, @setComp_get_self w pid comps _ hcomps⟩,
    ⟨k0, (@setComp_get_ne_name w pid (Component.stats s) "Skills"
      (show ("Skills" : String) ≠ "Stats" by decide) pid).trans hk⟩⟩

theorem hasCore_setComp_skills {w : World} {pid : Nat} (h : HasCore w pid)
    (k : Skills) : HasCore (setComp w pid (.skills k)) pid := by
  obtain ⟨⟨s0, hs⟩, ⟨k0, hk⟩⟩ := h
  obtain ⟨comps, hcomps, -⟩ := get_component_entity hs
  exact ⟨⟨s0, (@setComp_get_ne_name w pid (Component.skills k) "Stats"
      (show ("Stats" : String) ≠ "Skills" by decide) pid).trans hs⟩,
    ⟨k, @setComp_get_self w pid comps _ hcomps⟩⟩

theorem hasCore_update {w : World} {pid : Nat} (h : HasCore w pid) :
    HasCore (update_player_stats w pid) pid := by
  obtain ⟨⟨s0, hs⟩, hk⟩ := h
  unfold update_player_stats
  rw [hs]
  cases he : w.get_component pid "Equipment" with
  | none => exact ⟨⟨s0, hs⟩, hk⟩
  | some c =>
    cases c with
    | equipment eqc => exact hasCore_setComp_stats ⟨⟨s0, hs⟩, hk⟩ _
    | stats s2 => exact ⟨⟨s0, hs⟩, hk⟩
    | skills k2 => exact ⟨⟨s0, hs⟩, hk⟩
    | item i2 => exact ⟨⟨s0, hs⟩, hk⟩
    | other n2 => exact ⟨⟨s0, hs⟩, hk⟩

/-- Every award succeeds on an entity with the core components, and the
core components survive the award. -/
theorem award_experience_hasCore {w : World} {pid : Nat} (name : String)
    (pips : Nat) (h : HasCore w pid) :
    ∃ w', award_experience w pid name pips = some w' ∧ HasCore w' pid := by
  obtain ⟨⟨s0, hs⟩, ⟨k0, hk⟩⟩ := h
  by_cases hkey : pyLower name ∈ statKeys
  · rw [award_experience_stat name pips hs hkey]
    split <;> split <;>
      first
      | exact ⟨_, rfl, hasCore_setComp_stats ⟨⟨s0, hs⟩, ⟨k0, hk⟩⟩ _⟩
      | exact ⟨_, rfl, hasCore_update (hasCore_setComp_stats ⟨⟨s0, hs⟩, ⟨k0, hk⟩⟩ _)⟩
  · cases hsd : dlookup name k0.skills with
    | some sd =>
      rw [award_experience_skill name pips hs hk hkey hsd]
      split <;> split <;>
        exact ⟨_, rfl, hasCore_setComp_skills ⟨⟨s0, hs⟩, ⟨k0, hk⟩⟩ _⟩
    | none =>
      rw [award_experience_noskill name pips hs hk hkey hsd]
      exact ⟨w, rfl, ⟨⟨s0, hs⟩, ⟨k0, hk⟩⟩⟩

/-- The loop of assisting-skill awards in `perform_test` succeeds and
keeps the core components. -/
theorem foldlM_award_hasCore (names : List String) {w : World} {pid : Nat}
    (h : HasCore w pid) :
    ∃ w', names.foldlM (fun wa sn => award_experience wa pid sn 1) w = some w' ∧
      HasCore w' pid := by
  induction names generalizing w with
  | nil => exact ⟨w, rfl, h⟩
  | cons n rest ih =>
    obtain ⟨w1, hw1, h1⟩ := award_experience_hasCore n 1 h
    obtain ⟨w2, hw2, h2⟩ := ih h1
    refine ⟨w2, ?_, h2⟩
    rw [List.foldlM_cons, hw1]
    simpa using hw2

/-- The target fold of `perform_test` adds the assisting skills' bonus
sum to its starting value. -/
theorem skill_foldl_eq (skills : Skills) (names : List String) (init : Int) :
    names.foldl (fun t sn =>
      match dlookup sn skills.skills with
      | some sd => t + sd.bonus
      | none => t) init = init + skillBonusSum skills names := by
  induction names generalizing init with
  | nil => simp [skillBonusSum]
  | cons n rest ih =>
    simp only [skillBonusSum, List.foldl_cons]
    cases hsd : dlookup n skills.skills with
    | none =>
      simp only [hsd]
      exact ih init
    | some sd =>
      simp only [hsd]
      rw [ih (init + sd.bonus), ih (0 + sd.bonus)]
      omega

/-- Running `perform_test` once the experience side effect has been
resolved to a concrete world. -/
theorem perform_test_run {w : World} {pid : Nat} {ch : String}
    {modifier : Int} {assisting : List String} (roll : Nat)
    {stats : Stats} {skills : Skills} {adj : Int} {w1 : World}
    (hs : w.get_component pid "Stats" = some (.stats stats))
    (hk : w.get_component pid "Skills" = some (.skills skills))
    (ha : stats.adjOf (pyLower ch) = some adj)
    (hrun : (if roll ≤ 10 then
        (award_experience w pid (pyLower ch) 1).bind (fun w0 =>
          assisting.foldlM (fun wa sn => award_experience wa pid sn 1) w0)
      else some w) = some w1) :
    perform_test w pid ch modifier assisting roll =
      some ((if roll = 1 then true
        else if roll = 100 then false
        else decide ((roll : Int) ≤
          adj + modifier + skillBonusSum skills assisting)), roll, w1) := by
  simp only [perform_test, hs, hk, ha]
  rw [hrun]
  simp only [Option.map_some']
  rw [skill_foldl_eq]
  by_cases hq : roll = 1
  · simp [hq]
  · by_cases hq2 : roll = 100 <;> simp [hq, hq2]

/-- C1: `perform_test` computes the target as the adjusted
characteristic plus the modifier plus the assisting skills' bonus sum,
and for any d100 roll: 1 is an automatic success, 100 an automatic
failure, and otherwise the test succeeds exactly when `roll ≤ target`
(so with target 0 only a roll of 1 succeeds, and with target 100 every
roll except 100 succeeds). -/
theorem perform_test_boundary (w : World) (pid : Nat) (ch : String)
    (modifier : Int) (assisting : List String) (roll : Nat)
    (stats : Stats) (skills : Skills) (adj : Int)
    (hs : w.get_component pid "Stats" = some (.stats stats))
    (hk : w.get_component pid "Skills" = some (.skills skills))
    (ha : stats.adjOf (pyLower ch) = some adj)
    (h1 : 1 ≤ roll) (h100 : roll ≤ 100) :
    ∃ w', perform_test w pid ch modifier assisting roll =
      some ((if roll = 1 then true
        else if roll = 100 then false
        else decide ((roll : Int) ≤
          adj + modifier + skillBonusSum skills assisting)), roll, w') := by
  have hcore : HasCore w pid := ⟨⟨stats, hs⟩, ⟨skills, hk⟩⟩
  by_cases hr : roll ≤ 10
  · obtain ⟨w0, hw0, h0⟩ := award_experience_hasCore (pyLower ch) 1 hcore
    obtain ⟨w1, hw1, -⟩ := foldlM_award_hasCore assisting h0
    refine ⟨w1, perform_test_run roll hs hk ha ?_⟩
    rw [if_pos hr, hw0]
    simpa using hw1
  · exact ⟨w, perform_test_run roll hs hk ha (by rw [if_neg hr])⟩

/-- C1 witness: a Str 50 test with one assisting skill at roll 50. -/
theorem perform_test_boundary_witness :
    ∃ w', perform_test sampleWorld 0 "Str" 0 ["Locks"] 50 =
      some ((if 50 = 1 then true
        else if 50 = 100 then false
        else decide ((50 : Int) ≤
          0 + 0 + skillBonusSum Skills.init ["Locks"] + 50)), 50, w') := by
  have h := perform_test_boundary sampleWorld 0 "Str" 0 ["Locks"] 50
    sampleStats Skills.init 50 rfl rfl (by decide) (by decide) (by decide)
  obtain ⟨w', hw⟩ := h
  refine ⟨w', ?_⟩
  rw [hw]
  norm_num [skillBonusSum, Skills.init, skillNames, dlookup]

/-- C2: a roll of at most 10 makes `perform_test` issue exactly one
experience award to the tested characteristic and one to each assisting
skill (whatever the test outcome); a roll above 10 awards nothing and
leaves the world unchanged.  With no assisting skills, a non-attuned
characteristic and at least two empty slots, the tested track gains
exactly one filled pip. -/
theorem perform_test_xp_awards (w : World) (pid : Nat) (ch : String)
    (modifier : Int) (assisting : List String) (roll : Nat)
    (stats : Stats) (skills : Skills) (adj : Int)
    (hs : w.get_component pid "Stats" = some (.stats stats))
    (hk : w.get_component pid "Skills" = some (.skills skills))
    (ha : stats.adjOf (pyLower ch) = some adj)
    (h1 : 1 ≤ roll) (h100 : roll ≤ 100) :
    (10 < roll → ∃ res, perform_test w pid ch modifier assisting roll =
      some (res, roll, w)) ∧
    (roll ≤ 10 → ∃ w0 w1 res,
      award_experience w pid (pyLower ch) 1 = some w0 ∧
      assisting.foldlM (fun wa sn => award_experience wa pid sn 1) w0 = some w1 ∧
      perform_test w pid ch modifier assisting roll = some (res, roll, w1)) ∧
    (roll ≤ 10 → assisting = [] → pyLower ch ∉ stats.attuned_stats →
      2 ≤ (stats.xpOf (pyLower ch)).count 0 →
      ∃ w1 stats' res, perform_test w pid ch modifier assisting roll =
        some (res, roll, w1) ∧
        w1.get_component pid "Stats" = some (.stats stats') ∧
        stats'.xpOf (pyLower ch) = setFirstZero (stats.xpOf (pyLower ch)) ∧
        (stats'.xpOf (pyLower ch)).count 1 =
          (stats.xpOf (pyLower ch)).count 1 + 1) := by
  have hcore : HasCore w pid := ⟨⟨stats, hs⟩, ⟨skills, hk⟩⟩
  have hkey : pyLower ch ∈ statKeys := adjOf_mem ha
  refine ⟨?_, ?_, ?_⟩
  · intro hr
    have hr' : ¬ roll ≤ 10 := by omega
    exact ⟨_, perform_test_run roll hs hk ha (by rw [if_neg hr'])⟩
  · intro hr
    obtain ⟨w0, hw0, h0⟩ := award_experience_hasCore (pyLower ch) 1 hcore
    obtain ⟨w1, hw1, -⟩ := foldlM_award_hasCore assisting h0
    refine ⟨w0, w1, _, hw0, hw1, perform_test_run roll hs hk ha ?_⟩
    rw [if_pos hr, hw0]
    simpa using hw1
  · intro hr hempty hatt hcount
    subst hempty
    have hmem : 0 ∈ stats.xpOf (pyLower ch) := List.count_pos_iff.mp (by omega)
    have hzmem : 0 ∈ setFirstZero (stats.xpOf (pyLower ch)) :=
      mem_setFirstZero_of_two hcount
    obtain ⟨comps, hcomps, -⟩ := get_component_entity hs
    have hl2 : pyLower (pyLower ch) = pyLower ch := by
      rcases statKeys_cases hkey with h' | h' | h' <;> rw [h'] <;> rfl
    have hw0 : award_experience w pid (pyLower ch) 1 =
        some (setComp w pid (.stats (stats.setXp (pyLower ch)
          (setFirstZero (stats.xpOf (pyLower ch)))))) := by
      rw [award_experience_stat (pyLower ch) 1 hs (by rw [hl2]; exact hkey), hl2,
        if_neg hatt, Function.iterate_one, if_pos hzmem]
    refine ⟨setComp w pid (.stats (stats.setXp (pyLower ch)
        (setFirstZero (stats.xpOf (pyLower ch))))),
      stats.setXp (pyLower ch) (setFirstZero (stats.xpOf (pyLower ch))), _,
      perform_test_run roll hs hk ha ?_, ?_, ?_, ?_⟩
    · rw [if_pos hr, hw0]
      rfl
    · exact @setComp_get_self w pid comps _ hcomps
    · exact xpOf_setXp_self hkey _ _
    · rw [xpOf_setXp_self hkey]
      exact setFirstZero_count_one hmem

/-- C2 witness: a Str test at roll 5 with no assisting skills fills one
pip of the str track. -/
theorem perform_test_xp_awards_witness :
    ∃ w1 stats' res, perform_test sampleWorld 0 "Str" 0 [] 5 =
        some (res, 5, w1) ∧
      w1.get_component 0 "Stats" = some (.stats stats') ∧
      stats'.xpOf (pyLower "Str") =
        setFirstZero (sampleStats.xpOf (pyLower "Str")) ∧
      (stats'.xpOf (pyLower "Str")).count 1 =
        (sampleStats.xpOf (pyLower "Str")).count 1 + 1 := by
  have h := perform_test_xp_awards sampleWorld 0 "Str" 0 [] 5 sampleStats
    Skills.init 50 rfl rfl (by decide) (by decide) (by decide)
  exact h.2.2 (by decide) rfl (by decide) (by decide)

theorem statsWF_xpOf {s : Stats} (h : StatsWF s) {k : String}
    (hk : k ∈ statKeys) : TrackWF (s.xpOf k) := by
  rcases statKeys_cases hk with rfl | rfl | rfl
  · exact h.1
  · simpa [Stats.xpOf] using h.2.1
  · simpa [Stats.xpOf] using h.2.2

theorem statsWF_setXp {s : Stats} (h : StatsWF s) {k : String}
    (hk : k ∈ statKeys) {t : List Nat} (ht : TrackWF t) :
    StatsWF (s.setXp k t) := by
  rcases statKeys_cases hk with rfl | rfl | rfl
  · exact ⟨ht, h.2.1, h.2.2⟩
  · refine ⟨?_, ?_, ?_⟩ <;> simp [Stats.setXp] <;> first | exact ht | exact h.1 | exact h.2.2
  · refine ⟨?_, ?_, ?_⟩ <;> simp [Stats.setXp] <;> first | exact ht | exact h.1 | exact h.2.1

theorem statsWF_setPrimary {s : Stats} (h : StatsWF s) (k : String) (v : Int) :
    StatsWF (s.setPrimary k v) := by
  unfold Stats.setPrimary
  split
  · exact h
  · split <;> exact h

theorem statsWF_recompute {s : Stats} (h : StatsWF s) (w : World)
    (eq : Equipment) : StatsWF (recomputeStats w s eq) := by
  unfold StatsWF
  rw [recomputeStats_eq]
  exact h

/-- Source: `update_player_stats` keeps the entity's `Stats` component present,
preserves primaries and experience tracks, preserves track
well-formedness, and leaves the `Skills` component untouched. -/
theorem update_player_stats_stats {w : World} {pid : Nat} {s : Stats}
    (hs : w.get_component pid "Stats" = some (.stats s)) :
    ∃ s', (update_player_stats w pid).get_component pid "Stats" =
        some (.stats s') ∧
      (∀ k, s'.primaryOf k = s.primaryOf k) ∧
      (∀ k, s'.xpOf k = s.xpOf k) ∧
      (StatsWF s → StatsWF s') ∧
      (update_player_stats w pid).get_component pid "Skills" =
        w.get_component pid "Skills" := by
  obtain ⟨comps, hcomps, -⟩ := get_component_entity hs
  unfold update_player_stats
  rw [hs]
  cases he : w.get_component pid "Equipment" with
  | none => exact ⟨s, hs, fun _ => rfl, fun _ => rfl, id, rfl⟩
  | some c =>
    cases c with
    | equipment eqc =>
      refine ⟨recomputeStats w s eqc, @setComp_get_self w pid comps _ hcomps,
        recompute_primaryOf w s eqc, recompute_xpOf w s eqc,
        fun hwf => statsWF_recompute hwf w eqc,
        @setComp_get_ne_name w pid (Component.stats (recomputeStats w s eqc))
          "Skills" (show ("Skills" : String) ≠ "Stats" by decide) pid⟩
    | stats s2 => exact ⟨s, hs, fun _ => rfl, fun _ => rfl, id, rfl⟩
    | skills k2 => exact ⟨s, hs, fun _ => rfl, fun _ => rfl, id, rfl⟩
    | item i2 => exact ⟨s, hs, fun _ => rfl, fun _ => rfl, id, rfl⟩
    | other n2 => exact ⟨s, hs, fun _ => rfl, fun _ => rfl, id, rfl⟩

/-- C3: ten pips awarded to an empty non-attuned stat track trigger
exactly one level-up — the primary gains exactly 5, the track resets to
all-empty, and the equipment-derived values are recomputed immediately;
nine pips trigger no level-up and leave the primary unchanged. -/
theorem award_experience_levelup (w : World) (pid : Nat) (name : String)
    (stats : Stats) (eq : Equipment)
    (hs : w.get_component pid "Stats" = some (.stats stats))
    (he : w.get_component pid "Equipment" = some (.equipment eq))
    (hlow : pyLower name = name) (hkey : name ∈ statKeys)
    (hatt : name ∉ stats.attuned_stats)
    (hempty : stats.xpOf name = List.replicate 10 0) :
    (∃ w' stats', award_experience w pid name 10 = some w' ∧
      w'.get_component pid "Stats" = some (.stats stats') ∧
      stats'.primaryOf name = stats.primaryOf name + 5 ∧
      stats'.xpOf name = List.replicate 10 0 ∧
      stats'.adj_str = stats'.primary_str +
        itemsSum w "str" (eq.slots.map (fun p => p.2)) ∧
      stats'.adj_dex = stats'.primary_dex +
        itemsSum w "dex" (eq.slots.map (fun p => p.2)) ∧
      stats'.adj_int = stats'.primary_int +
        itemsSum w "int" (eq.slots.map (fun p => p.2)) ∧
      stats'.max_hp = stats'.primary_hp +
        itemsSum w "hp" (eq.slots.map (fun p => p.2)) ∧
      stats'.defense = itemsSum w "def" (eq.slots.map (fun p => p.2)) ∧
      stats'.damage_mod = itemsSum w "dmg" (eq.slots.map (fun p => p.2))) ∧
    (∃ w'' stats'', award_experience w pid name 9 = some w'' ∧
      w''.get_component pid "Stats" = some (.stats stats'') ∧
      stats''.primaryOf name = stats.primaryOf name ∧
      stats''.xpOf name = List.replicate 9 1 ++ [0]) := by
  obtain ⟨comps, hcomps, -⟩ := get_component_entity hs
  have hkey' : pyLower name ∈ statKeys := by rw [hlow]; exact hkey
  constructor
  · have hfill : setFirstZero^[10] (List.replicate 10 0) =
        List.replicate 10 1 := by decide
    have hw' : award_experience w pid name 10 =
        some (update_player_stats (setComp w pid (.stats
          (((stats.setXp name (List.replicate 10 1)).setPrimary name
            (stats.primaryOf name + 5)).setXp name
            (List.replicate 10 0)))) pid) := by
      rw [award_experience_stat name 10 hs hkey', hlow, if_neg hatt, hempty,
        hfill, if_neg (by decide)]
    set L := ((stats.setXp name (List.replicate 10 1)).setPrimary name
      (stats.primaryOf name + 5)).setXp name (List.replicate 10 0) with hL
    have hs2 : (setComp w pid (.stats L)).get_component pid "Stats" =
        some (.stats L) := @setComp_get_self w pid comps _ hcomps
    have he2 : (setComp w pid (.stats L)).get_component pid "Equipment" =
        some (.equipment eq) :=
      (@setComp_get_ne_name w pid (Component.stats L) "Equipment"
        (show ("Equipment" : String) ≠ "Stats" by decide) pid).trans he
    have hcomps2 : dlookup pid (setComp w pid (.stats L)).entities =
        some (dinsert "Stats" (.stats L) comps) :=
      @setComp_entities_some w pid comps (Component.stats L) hcomps
    have hupd := update_player_stats_eq hs2 he2
    refine ⟨_, recomputeStats (setComp w pid (.stats L)) L eq, hw', ?_, ?_, ?_,
      ?_, ?_, ?_, ?_, ?_, ?_⟩
    · rw [hupd]
      exact @setComp_get_self (setComp w pid (.stats L)) pid _ _ hcomps2
    · rw [recompute_primaryOf, hL, setXp_primaryOf,
        setPrimary_primaryOf_self hkey]
    · rw [recompute_xpOf, hL, xpOf_setXp_self hkey]
    all_goals simp [recomputeStats_eq, itemsSum_setComp_stats]
  · have hfill9 : setFirstZero^[9] (List.replicate 10 0) =
        List.replicate 9 1 ++ [0] := by decide
    have hw'' : award_experience w pid name 9 =
        some (setComp w pid (.stats (stats.setXp name
          (List.replicate 9 1 ++ [0])))) := by
      rw [award_experience_stat name 9 hs hkey', hlow, if_neg hatt, hempty,
        hfill9, if_pos (by decide)]
    refine ⟨_, stats.setXp name (List.replicate 9 1 ++ [0]), hw'',
      @setComp_get_self w pid comps _ hcomps, ?_, xpOf_setXp_self hkey _ _⟩
    rw [setXp_primaryOf]

/-- C3 witness: ten pips on the sample world's empty str track. -/
theorem award_experience_levelup_witness :
    (∃ w' stats', award_experience sampleWorld 0 "str" 10 = some w' ∧
      w'.get_component 0 "Stats" = some (.stats stats') ∧
      stats'.primaryOf "str" = sampleStats.primaryOf "str" + 5 ∧
      stats'.xpOf "str" = List.replicate 10 0 ∧
      stats'.adj_str = stats'.primary_str +
        itemsSum sampleWorld "str" (sampleEquipment.slots.map (fun p => p.2)) ∧
      stats'.adj_dex = stats'.primary_dex +
        itemsSum sampleWorld "dex" (sampleEquipment.slots.map (fun p => p.2)) ∧
      stats'.adj_int = stats'.primary_int +
        itemsSum sampleWorld "int" (sampleEquipment.slots.map (fun p => p.2)) ∧
      stats'.max_hp = stats'.primary_hp +
        itemsSum sampleWorld "hp" (sampleEquipment.slots.map (fun p => p.2)) ∧
      stats'.defense = itemsSum sampleWorld "def"
        (sampleEquipment.slots.map (fun p => p.2)) ∧
      stats'.damage_mod = itemsSum sampleWorld "dmg"
        (sampleEquipment.slots.map (fun p => p.2))) ∧
    (∃ w'' stats'', award_experience sampleWorld 0 "str" 9 = some w'' ∧
      w''.get_component 0 "Stats" = some (.stats stats'') ∧
      stats''.primaryOf "str" = sampleStats.primaryOf "str" ∧
      stats''.xpOf "str" = List.replicate 9 1 ++ [0]) :=
  award_experience_levelup sampleWorld 0 "str" sampleStats sampleEquipment
    rfl rfl rfl (by decide) (by decide) rfl

/-- C10: however many pips one `award_experience` call grants (attuned
doubling included), every track stays a well-formed 10-slot 0/1 list,
each primary stat and skill bonus moves by 0 or exactly 5 (at most one
level-up), a level-up leaves an all-empty track behind (surplus pips are
discarded, never carried over), and filling beyond the empty slots is a
no-op. -/
theorem award_experience_track_invariants (w : World) (pid : Nat)
    (name : String) (pips : Nat) (stats : Stats) (skills : Skills)
    (hs : w.get_component pid "Stats" = some (.stats stats))
    (hk : w.get_component pid "Skills" = some (.skills skills))
    (hws : StatsWF stats) (hwk : SkillsWF skills) :
    ∃ w' stats' skills', award_experience w pid name pips = some w' ∧
      w'.get_component pid "Stats" = some (.stats stats') ∧
      w'.get_component pid "Skills" = some (.skills skills') ∧
      StatsWF stats' ∧ SkillsWF skills' ∧
      (∀ k ∈ statKeys, stats'.primaryOf k = stats.primaryOf k ∨
        (stats'.primaryOf k = stats.primaryOf k + 5 ∧
         stats'.xpOf k = List.replicate 10 0)) ∧
      (∀ sn sd', dlookup sn skills'.skills = some sd' →
        ∃ sd, dlookup sn skills.skills = some sd ∧
          (sd'.bonus = sd.bonus ∨ (sd'.bonus = sd.bonus + 5 ∧
           sd'.xp_pips = List.replicate 10 0))) ∧
      (∀ t n, setFirstZero^[n] t = setFirstZero^[min n (t.count 0)] t) := by
  obtain ⟨comps, hcomps, -⟩ := get_component_entity hs
  by_cases hkey : pyLower name ∈ statKeys
  · -- stat award
    rw [award_experience_stat name pips hs hkey]
    set p := if pyLower name ∈ stats.attuned_stats then pips * 2 else pips with hp
    set track := setFirstZero^[p] (stats.xpOf (pyLower name)) with htrack
    have htwf : TrackWF track := trackWF_iterate (statsWF_xpOf hws hkey) p
    by_cases hz : 0 ∈ track
    · rw [if_pos hz]
      refine ⟨_, stats.setXp (pyLower name) track, skills, rfl,
        @setComp_get_self w pid comps _ hcomps,
        (@setComp_get_ne_name w pid
          (Component.stats (stats.setXp (pyLower name) track)) "Skills"
          (show ("Skills" : String) ≠ "Stats" by decide) pid).trans hk,
        statsWF_setXp hws hkey htwf, hwk, ?_, ?_, fun t n => setFirstZero_iterate_min t n⟩
      · intro k _
        exact .inl (setXp_primaryOf stats (pyLower name) k track)
      · intro sn sd' hsd'
        exact ⟨sd', hsd', .inl rfl⟩
    · rw [if_neg hz]
      set L := ((stats.setXp (pyLower name) track).setPrimary (pyLower name)
        (stats.primaryOf (pyLower name) + 5)).setXp (pyLower name)
        (List.replicate 10 0) with hL
      have hs2 : (setComp w pid (.stats L)).get_component pid "Stats" =
          some (.stats L) := @setComp_get_self w pid comps _ hcomps
      obtain ⟨s', hgs', hprim, hxp, hwf', hsk'⟩ := update_player_stats_stats hs2
      have hLwf : StatsWF L :=
        statsWF_setXp (statsWF_setPrimary (statsWF_setXp hws hkey htwf) _ _)
          hkey trackWF_replicate
      refine ⟨_, s', skills, rfl, hgs', ?_, hwf' hLwf, hwk, ?_, ?_,
        fun t n => setFirstZero_iterate_min t n⟩
      · rw [hsk']
        exact (@setComp_get_ne_name w pid (Component.stats L) "Skills"
          (show ("Skills" : String) ≠ "Stats" by decide) pid).trans hk
      · intro k hkmem
        by_cases hkn : k = pyLower name
        · subst hkn
          refine .inr ⟨?_, ?_⟩
          · rw [hprim, hL, setXp_primaryOf, setPrimary_primaryOf_self hkey]
          · rw [hxp, hL, xpOf_setXp_self hkey]
        · refine .inl ?_
          rw [hprim, hL, setXp_primaryOf,
            setPrimary_primaryOf_ne hkey hkmem hkn, setXp_primaryOf]
      · intro sn sd' hsd'
        exact ⟨sd', hsd', .inl rfl⟩
  · -- skill (or unknown-name) award
    cases hsd : dlookup name skills.skills with
    | some sd =>
      have hsdwf : TrackWF sd.xp_pips := hwk (name, sd) (dlookup_mem hsd)
      rw [award_experience_skill name pips hs hk hkey hsd]
      set q := (if sd.attuned then pips * 2 else pips) * 2 with hq
      set track := setFirstZero^[q] sd.xp_pips with htrack
      have hskget : ∀ sd2 : SkillData,
          (setComp w pid (.skills ⟨dinsert name sd2 skills.skills⟩)).get_component
            pid "Stats" = some (.stats stats) := fun sd2 =>
        (@setComp_get_ne_name w pid
          (Component.skills ⟨dinsert name sd2 skills.skills⟩) "Stats"
          (show ("Stats" : String) ≠ "Skills" by decide) pid).trans hs
      have hwkins : ∀ sd2 : SkillData, TrackWF sd2.xp_pips →
          SkillsWF ⟨dinsert name sd2 skills.skills⟩ := by
        intro sd2 h2 q hq
        rcases mem_dinsert hq with h' | h'
        · rw [h']; exact h2
        · exact hwk q h'
      have hlook : ∀ sd2 : SkillData, ∀ sn sd',
          dlookup sn (dinsert name sd2 skills.skills) = some sd' →
          (sn = name ∧ sd' = sd2) ∨ dlookup sn skills.skills = some sd' := by
        intro sd2 sn sd' hsn
        by_cases hne : sn = name
        · subst hne
          rw [dlookup_dinsert_self] at hsn
          exact .inl ⟨rfl, (Option.some_injective _ hsn).symm⟩
        · rw [dlookup_dinsert_ne (fun he => hne he.symm)] at hsn
          exact .inr hsn
      by_cases hz : 0 ∈ track
      · rw [if_pos hz]
        refine ⟨_, stats, ⟨dinsert name { sd with xp_pips := track }
            skills.skills⟩, rfl, hskget _, ?_, hws,
          hwkins _ (trackWF_iterate hsdwf q), fun k _ => .inl rfl, ?_,
          fun t n => setFirstZero_iterate_min t n⟩
        · obtain ⟨comps2, hcomps2, -⟩ := get_component_entity hk
          exact @setComp_get_self w pid comps2 _ hcomps2
        · intro sn sd' hsd'
          rcases hlook _ sn sd' hsd' with ⟨rfl, rfl⟩ | h'
          · exact ⟨sd, hsd, .inl rfl⟩
          · exact ⟨sd', h', .inl rfl⟩
      · rw [if_neg hz]
        refine ⟨_, stats, ⟨dinsert name
            { sd with bonus := sd.bonus + 5
                      xp_pips := List.replicate 10 0 } skills.skills⟩, rfl,
          hskget _, ?_, hws, hwkins _ trackWF_replicate,
          fun k _ => .inl rfl, ?_,
          fun t n => setFirstZero_iterate_min t n⟩
        · obtain ⟨comps2, hcomps2, -⟩ := get_component_entity hk
          exact @setComp_get_self w pid comps2 _ hcomps2
        · intro sn sd' hsd'
          rcases hlook _ sn sd' hsd' with ⟨rfl, rfl⟩ | h'
          · exact ⟨sd, hsd, .inr ⟨rfl, rfl⟩⟩
          · exact ⟨sd', h', .inl rfl⟩
    | none =>
      rw [award_experience_noskill name pips hs hk hkey hsd]
      exact ⟨w, stats, skills, rfl, hs, hk, hws, hwk, fun k _ => .inl rfl,
        fun sn sd' hsd' => ⟨sd', hsd', .inl rfl⟩,
        fun t n => setFirstZero_iterate_min t n⟩

/-- C10 witness: 25 pips on the sample world's str stat — one level-up,
surplus discarded. -/
theorem award_experience_track_invariants_witness :
    ∃ w' stats' skills',
      award_experience sampleWorld 0 "str" 25 = some w' ∧
      w'.get_component 0 "Stats" = some (.stats stats') ∧
      w'.get_component 0 "Skills" = some (.skills skills') ∧
      StatsWF stats' ∧ SkillsWF skills' ∧
      (∀ k ∈ statKeys, stats'.primaryOf k = sampleStats.primaryOf k ∨
        (stats'.primaryOf k = sampleStats.primaryOf k + 5 ∧
         stats'.xpOf k = List.replicate 10 0)) ∧
      (∀ sn sd', dlookup sn skills'.skills = some sd' →
        ∃ sd, dlookup sn Skills.init.skills = some sd ∧
          (sd'.bonus = sd.bonus ∨ (sd'.bonus = sd.bonus + 5 ∧
           sd'.xp_pips = List.replicate 10 0))) ∧
      (∀ t n, setFirstZero^[n] t = setFirstZero^[min n (t.count 0)] t) :=
  award_experience_track_invariants sampleWorld 0 "str" 25 sampleStats
    Skills.init rfl rfl (by decide) (by decide)

end Game
